import Mathlib

/-!
Verification of the doc-checker repository (documentation-URL classifier).

The repository contains several near-duplicate implementations of the same
pipeline:

* `src/doc-check.ts` — `DocumentationUrlValidator` (boolean API, heuristics
  plus an LLM fallback, cache and rate limit);
* `src/doc-check-open.ts` — `DocumentationUrlValidator` (boolean API, every
  path ends in an LLM check);
* `src/doc-check-claude.ts` — `DocumentationDetector` (rich `DocResult` API,
  no cache) and a second `DocumentationUrlValidator` (strong-signal
  short-circuit, cache).

Each is embedded shallowly below.  External collaborators (the WHATWG URL
parser, the HTTP fetcher, the cheerio HTML extractor and the LLM oracle) are
modelled as parameters/oracles, exactly at the interface boundary the code
uses them; everything the repository itself computes is translated directly
from the TypeScript.  Side effects that the claims talk about (cache
reads/writes, fetch attempts, arbiter invocations, rate-limit delays) are
made observable through an explicit `Effects` record threaded through the
control flow.
-/

/-! ## String helpers

JavaScript's `String.prototype.includes`, `startsWith` and `endsWith`,
implemented over character lists so that every use is executable and
kernel-reducible. -/

/-- Does the second list occur at the head of the first? -/
def charListStarts : List Char → List Char → Bool
  | _, [] => true
  | [], _ :: _ => false
  | c :: cs, d :: ds => c == d && charListStarts cs ds

/-- Does the second list occur anywhere inside the first? -/
def charListHas : List Char → List Char → Bool
  | [], pat => pat.isEmpty
  | c :: cs, pat => charListStarts (c :: cs) pat || charListHas cs pat

/-- JS `hay.includes(pat)`. -/
def strHas (hay pat : String) : Bool := charListHas hay.toList pat.toList

/-- JS `hay.startsWith(pat)`. -/
def strStarts (hay pat : String) : Bool := charListStarts hay.toList pat.toList

/-- JS `hay.endsWith(pat)`. -/
def strEnds (hay pat : String) : Bool :=
  charListStarts hay.toList.reverse pat.toList.reverse

/-- JS `s.toLowerCase()` (ASCII, which is all the code compares against),
implemented over the character list so it is kernel-reducible. -/
def strLower (s : String) : String :=
  String.mk (s.toList.map Char.toLower)

/-- JS `s.split(sep)` on a single-character separator. -/
def splitOnChar (sep : Char) : List Char → List (List Char)
  | [] => [[]]
  | c :: cs =>
    let r := splitOnChar sep cs
    if c == sep then [] :: r
    else
      match r with
      | [] => [[c]]
      | h :: t => (c :: h) :: t

/-- JS `parts.join('/')`. -/
def joinSlash : List (List Char) → List Char
  | [] => []
  | [x] => x
  | x :: xs => x ++ '/' :: joinSlash xs

/-- JS `hay.replace(pat, '')`: remove the first occurrence of `pat`. -/
def removeFirst : List Char → List Char → List Char
  | [], _ => []
  | c :: cs, pat =>
    if charListStarts (c :: cs) pat then (c :: cs).drop pat.length
    else c :: removeFirst cs pat

/-! ## Shared data model -/

/-- The fields of a parsed WHATWG `URL` object that the repository reads.
URL parsing itself is Node's collaborator; the pipelines receive a parse
function `String → Option Url` (`none` models `new URL(url)` throwing). -/
structure Url where
  hostname : String
  pathname : String
  href : String
deriving DecidableEq

/-- An atomic signed observation, `{ score, reason }` in the source. -/
structure Evidence where
  score : ℤ
  reason : String
deriving DecidableEq

/-- `evidence.reduce((sum, item) => sum + item.score, 0)` — the evidence
aggregation used by every variant. -/
def evTotal (l : List Evidence) : ℤ := l.foldl (fun s e => s + e.score) 0

/-- A classification result `{ isDocumentation, confidence, source }`
(the `details` payload is not modelled; no claim mentions it). -/
structure DocResult where
  isDocumentation : Bool
  confidence : ℚ
  source : String
deriving DecidableEq

/-- The shared rate-window state: `requestCount` and `resetTime` fields of
the validator classes. -/
structure RateState where
  requestCount : ℕ
  resetTime : ℤ
deriving DecidableEq

/-- The boolean result cache, `Map<string, CacheEntry>` with
`CacheEntry = { result: boolean, timestamp: number }`.  Modelled as an
association list in which lookup takes the first binding and `Map.set`
prepends, giving exactly the map's read-your-latest-write behaviour. -/
abbrev CacheMap : Type := List (String × Bool × ℤ)

/-- `this.cache.get(url)` on the boolean cache. -/
def cacheLookup (cache : CacheMap) (url : String) : Option (Bool × ℤ) :=
  match cache.find? (fun e => e.1 == url) with
  | some e => some e.2
  | none => none

/-- `this.cache.set(url, { result, timestamp: now })`. -/
def cacheStore (cache : CacheMap) (url : String) (result : Bool) (now : ℤ) :
    CacheMap :=
  (url, result, now) :: cache

/-- Mutable validator state: the result cache plus the rate window. -/
structure ValState where
  cache : CacheMap
  rate : RateState
deriving DecidableEq

/-- The state a freshly constructed validator starts in: empty cache,
`requestCount = 0`, `resetTime = Date.now() + 60000`. -/
def initState (now : ℤ) : ValState :=
  ⟨[], ⟨0, now + 60000⟩⟩

/-- Observable side effects of one `isDocUrl` call.  `cacheRead` records
that the cache was consulted, `cacheHit` that a cached value was returned,
`cacheWrite` that a value was stored, `fetched` that an HTTP content fetch
was attempted, `llmCalled` that the LLM arbiter was invoked, `rateDelay`
the wait imposed by the rate limiter, and `rateConsumed` that a unit of the
per-minute request budget was used. -/
structure Effects where
  cacheRead : Bool
  cacheHit : Bool
  cacheWrite : Bool
  fetched : Bool
  llmCalled : Bool
  rateDelay : ℤ
  rateConsumed : Bool
deriving DecidableEq

/-- No side effect at all. -/
def noEffects : Effects := ⟨false, false, false, false, false, 0, false⟩

/-- Effects of a call answered from the cache: the cache was read and hit,
nothing else happened. -/
def cacheHitEffects : Effects := ⟨true, true, false, false, false, 0, false⟩

/-- Outcome of the LLM arbiter call, at the interface boundary of §6 of the
spec: the request can throw or return no content (`apiFailure`), the
returned text can fail `JSON.parse` or have wrongly-typed fields
(`badJson`), or it parses into `{ isDocumentation, confidence }`. -/
inductive LlmOutcome where
  | apiFailure
  | badJson
  | parsed (verdict : Bool) (confidence : ℚ)
deriving DecidableEq

/-! ## `src/doc-check.ts` — validator with heuristics + LLM fallback -/

namespace DocCheck

/-- The configuration fields of `doc-check.ts` that influence control flow
(LLM model/temperature and content-length limits only parameterize the
external calls). -/
structure Config where
  maxRequestsPerMinute : ℕ
  minHeuristicConfidence : ℚ
  minLlmConfidence : ℚ
  cacheTtl : ℤ
deriving DecidableEq

/-- `DEFAULT_CONFIG` of doc-check.ts: 10 requests/minute,
`minHeuristicConfidence = 0.7`, `minLlmConfidence = 0.8`,
`cacheTtl = 86400` seconds. -/
def defaultConfig : Config := ⟨10, 7/10, 4/5, 86400⟩

/-- `checkCache`: return the entry's result if
`Date.now() - entry.timestamp < cacheTtl * 1000`, else `null`. -/
def checkCache (cfg : Config) (cache : CacheMap) (now : ℤ) (url : String) :
    Option Bool :=
  match cacheLookup cache url with
  | some (r, ts) => if now - ts < cfg.cacheTtl * 1000 then some r else none
  | none => none

/-- `applyRateLimit`: reset the window if the minute has passed; if the
budget is exhausted, wait out the remainder of the window (returned as the
first component), reset, and proceed; finally increment the counter.
`Date.now()` after the wait is `now + waitTime`. -/
def applyRateLimit (maxPerMinute : ℕ) (r : RateState) (now : ℤ) :
    ℤ × RateState :=
  let r1 : RateState := if r.resetTime < now then ⟨0, now + 60000⟩ else r
  if maxPerMinute ≤ r1.requestCount then
    let waitTime := r1.resetTime - now
    (waitTime, ⟨1, now + waitTime + 60000⟩)
  else
    (0, ⟨r1.requestCount + 1, r1.resetTime⟩)

/-- Iterated rate-limit calls at a fixed instant `now`, starting from the
state of a freshly constructed validator.  Returns the state after `n`
calls together with the delay observed by the `n`-th call. -/
def rateRun (maxPerMinute : ℕ) (now : ℤ) : ℕ → RateState × ℤ
  | 0 => (⟨0, now + 60000⟩, 0)
  | n + 1 =>
    let p := rateRun maxPerMinute now n
    let q := applyRateLimit maxPerMinute p.1 now
    (q.2, q.1)

/-- `docSubdomains` list of doc-check.ts. -/
def docSubdomains : List String :=
  ["docs", "documentation", "developer", "dev", "api", "support", "help",
   "learn", "wiki"]

/-- `docKeywords` list of doc-check.ts. -/
def docKeywords : List String :=
  ["doc", "docs", "documentation", "manual", "guide", "tutorial",
   "reference", "api", "sdk", "howto", "how-to", "help"]

/-- `docPlatforms` list of doc-check.ts. -/
def docPlatforms : List String :=
  ["readthedocs.io", "readthedocs.org", "gitbook.io", "mkdocs.org",
   "docsify.js.org", "vuepress.vuejs.org", "docusaurus.io"]

/-- `docSubdomains.some(subDomain => hostname.includes(subDomain))`. -/
def hasDocSubdomain (hostname : String) : Bool :=
  docSubdomains.any (fun s => strHas hostname s)

/-- `docKeywords.some(keyword => pathname.toLowerCase().includes(keyword))`. -/
def pathHasDocKeyword (pathname : String) : Bool :=
  docKeywords.any (fun k => strHas (strLower pathname) k)

/-- `pathname.match(/\.(md|html|htm|txt|pdf|rst|adoc|wiki|dita)$/i)`:
an anchored case-insensitive extension alternation, i.e. the lowercased
path ends with one of the extensions. -/
def hasDocExtension (pathname : String) : Bool :=
  let p := strLower pathname
  [".md", ".html", ".htm", ".txt", ".pdf", ".rst", ".adoc", ".wiki",
   ".dita"].any (fun e => strEnds p e)

/-- `hostname.includes('github.com') || hostname.includes('gitlab.com') ||
hostname.includes('bitbucket.org')`. -/
def isGitHostname (hostname : String) : Bool :=
  strHas hostname "github.com" || strHas hostname "gitlab.com" ||
  strHas hostname "bitbucket.org"

/-- `pathname.match(/\/blob\/.*\.(md|rst|adoc)$/)`.  Because no character
of `/blob/` occurs in `.md`, `.rst` or `.adoc`, the regex matches exactly
when the path contains `/blob/` and ends with one of the extensions. -/
def isBlobDocFile (pathname : String) : Bool :=
  strHas pathname "/blob/" &&
  (strEnds pathname ".md" || strEnds pathname ".rst" ||
   strEnds pathname ".adoc")

/-- The if/else-if chain of the repository-platform branch: contributions
to `(docEvidence, nonDocEvidence)`. -/
def gitPatternEvidence (pathname : String) : ℕ × ℕ :=
  if strHas pathname "wiki" || strHas pathname "pages" ||
      strHas pathname "docs" then (2, 0)
  else if strEnds pathname "README.md" then (1, 0)
  else if isBlobDocFile pathname then (1, 0)
  else if !strHas pathname "/blob/" && !strHas pathname "/tree/" then (0, 1)
  else (0, 0)

/-- `docPlatforms.some(platform => hostname.includes(platform))`. -/
def hasDocPlatform (hostname : String) : Bool :=
  docPlatforms.any (fun p => strHas hostname p)

/-- The URL-only part of `applyHeuristics`: the accumulated
`(docEvidence, nonDocEvidence)` before any content fetch. -/
def urlEvidence (u : Url) : ℕ × ℕ :=
  let d1 := if hasDocSubdomain u.hostname then 2 else 0
  let d2 := if pathHasDocKeyword u.pathname then 2 else 0
  let d3 := if hasDocExtension u.pathname then 1 else 0
  let g := if isGitHostname u.hostname then gitPatternEvidence u.pathname
           else (0, 0)
  let d4 := if hasDocPlatform u.hostname then 3 else 0
  (d1 + d2 + d3 + g.1 + d4, g.2)

/-- Structural signals the cheerio collaborator extracts from a fetched
page; each boolean is the emptiness test of one selector/keyword query in
`applyHeuristics`. -/
structure PageSignals where
  titleHasDocKeyword : Bool
  metaHasDocKeyword : Bool
  hasSidebar : Bool
  hasSearch : Bool
  hasCodeBlocks : Bool
  headingsHaveDocKeyword : Bool
  bodyHasNonDocKeyword : Bool
deriving DecidableEq

/-- Outcome of the `axios.get` content fetch made by `applyHeuristics`:
the request throws (`failure`), returns non-string data (`nonString`,
skipping all content checks), or returns an HTML page whose extracted
signals are `sig`. -/
inductive FetchOutcome where
  | failure
  | nonString
  | page (sig : PageSignals)
deriving DecidableEq

/-- Content contributions to `(docEvidence, nonDocEvidence)`. -/
def contentEvidence (sig : PageSignals) : ℕ × ℕ :=
  ((if sig.titleHasDocKeyword then 2 else 0) +
   (if sig.metaHasDocKeyword then 1 else 0) +
   (if sig.hasSidebar then 1 else 0) +
   (if sig.hasSearch then 1 else 0) +
   (if sig.hasCodeBlocks then 1 else 0) +
   (if sig.headingsHaveDocKeyword then 1 else 0),
   if sig.bodyHasNonDocKeyword then 1 else 0)

/-- Final totals `(docEvidence, nonDocEvidence, fetchFailed)` of
`applyHeuristics`: content evidence is only gathered when
`docEvidence - nonDocEvidence < 3`. -/
def heuristicTotals (u : Url) (fetch : FetchOutcome) : ℕ × ℕ × Bool :=
  let e0 := urlEvidence u
  if (e0.1 : ℤ) - (e0.2 : ℤ) < 3 then
    match fetch with
    | .failure => (e0.1, e0.2, true)
    | .nonString => (e0.1, e0.2, false)
    | .page sig =>
      let c := contentEvidence sig
      (e0.1 + c.1, e0.2 + c.2, false)
  else (e0.1, e0.2, false)

/-- The confidence computation at the end of `applyHeuristics`:
`confidenceScore` starts at `0.5`, drops to `0.4` on fetch failure, is
overwritten with `0.5 + (doc - nonDoc) / (total * 2)` whenever
`total > 0`, and is finally clamped with
`Math.max(0, Math.min(1, confidenceScore))`. -/
def confidenceFormula (doc nonDoc : ℕ) (fetchFailed : Bool) : ℚ :=
  let base : ℚ := if fetchFailed then 1/2 - 1/10 else 1/2
  let total : ℕ := doc + nonDoc
  let raw : ℚ :=
    if 0 < total then
      1/2 + (((doc : ℚ) - (nonDoc : ℚ)) / ((total : ℚ) * 2))
    else base
  max 0 (min 1 raw)

/-- Result of `applyHeuristics`, plus whether the content fetch was
attempted (the `docEvidence - nonDocEvidence < 3` gate was open). -/
structure HeurResult where
  confidence : ℚ
  isDoc : Bool
  fetchAttempted : Bool
deriving DecidableEq

/-- `applyHeuristics` of doc-check.ts. -/
def applyHeuristics (u : Url) (fetch : FetchOutcome) : HeurResult :=
  let e0 := urlEvidence u
  let t := heuristicTotals u fetch
  { confidence := confidenceFormula t.1 t.2.1 t.2.2,
    isDoc := decide (t.2.1 < t.1),
    fetchAttempted := decide ((e0.1 : ℤ) - (e0.2 : ℤ) < 3) }

/-- The decision logic of `askLlm`: a well-formed response whose
self-reported confidence meets `minLlmConfidence` is believed; every other
outcome (low confidence, parse failure, API failure) yields `false`. -/
def askLlmDecision (llm : LlmOutcome) (minConf : ℚ) : Bool :=
  match llm with
  | .parsed v c => if minConf ≤ c then v else false
  | _ => false

/-- `DocumentationUrlValidator.isDocUrl` of doc-check.ts: validate the URL
(`parse url = none` models `new URL` throwing, caught by the outer
`try/catch` which returns `false`), consult the cache, apply the rate
limit, run heuristics (fetching content when URL evidence is weak), return
the heuristic verdict when confident enough, otherwise defer to the LLM
(`askLlm` always attempts its own content fetch first).  Every computed
verdict is cached with the current timestamp. -/
def isDocUrl (cfg : Config) (parse : String → Option Url)
    (fetch : FetchOutcome) (llm : LlmOutcome) (now : ℤ) (s : ValState)
    (url : String) : Bool × ValState × Effects :=
  match parse url with
  | none => (false, s, noEffects)
  | some u =>
    match checkCache cfg s.cache now url with
    | some v => (v, s, cacheHitEffects)
    | none =>
      let p := applyRateLimit cfg.maxRequestsPerMinute s.rate now
      let now2 := now + p.1
      let h := applyHeuristics u fetch
      if cfg.minHeuristicConfidence ≤ h.confidence then
        (h.isDoc, ⟨cacheStore s.cache url h.isDoc now2, p.2⟩,
         ⟨true, false, true, h.fetchAttempted, false, p.1, true⟩)
      else
        let v := askLlmDecision llm cfg.minLlmConfidence
        (v, ⟨cacheStore s.cache url v now2, p.2⟩,
         ⟨true, false, true, true, true, p.1, true⟩)

/-- The exported module-level `isDocUrl` convenience function: construct a
brand-new `DocumentationUrlValidator(config)` (empty cache, fresh rate
window) and delegate. -/
def isDocUrlExported (cfg : Config) (parse : String → Option Url)
    (fetch : FetchOutcome) (llm : LlmOutcome) (now : ℤ) (url : String) :
    Bool × ValState × Effects :=
  isDocUrl cfg parse fetch llm now (initState now) url

end DocCheck

/-! ## `src/doc-check-open.ts` — validator in which every path ends in an
LLM check -/

namespace DocCheckOpen

/-- The control-flow-relevant configuration of doc-check-open.ts. -/
structure Config where
  maxRequestsPerMinute : ℕ
  cacheTtl : ℤ
  minLlmConfidence : ℚ
deriving DecidableEq

/-- `DEFAULT_CONFIG` of doc-check-open.ts: 10 requests/minute,
`cacheTtl = 86400` seconds, `minLlmConfidence = 0.7`. -/
def defaultConfig : Config := ⟨10, 86400, 7/10⟩

/-- `getCachedResult`: `null` when absent; otherwise expired exactly when
`(Date.now() - entry.timestamp) > cacheTtl * 1000`, and the stored result
is returned when not expired. -/
def getCachedResult (cfg : Config) (cache : CacheMap) (now : ℤ)
    (url : String) : Option Bool :=
  match cacheLookup cache url with
  | some (r, ts) => if cfg.cacheTtl * 1000 < now - ts then none else some r
  | none => none

/-- `applyRateLimit` of doc-check-open.ts — same logic as doc-check.ts. -/
def applyRateLimit (maxPerMinute : ℕ) (r : RateState) (now : ℤ) :
    ℤ × RateState :=
  let r1 : RateState := if r.resetTime < now then ⟨0, now + 60000⟩ else r
  if maxPerMinute ≤ r1.requestCount then
    let waitTime := r1.resetTime - now
    (waitTime, ⟨1, now + waitTime + 60000⟩)
  else
    (0, ⟨r1.requestCount + 1, r1.resetTime⟩)

/-- `isGitHost`: the parsed hostname contains a known git host. -/
def isGitHost (u : Url) : Bool :=
  strHas u.hostname "github.com" || strHas u.hostname "gitlab.com" ||
  strHas u.hostname "bitbucket.org"

/-- The decision logic of `runLlmCheck`: a response that parses with
correctly-typed fields and whose confidence meets `minLlmConfidence` is
believed; every other outcome yields `false`. -/
def runLlmCheckDecision (llm : LlmOutcome) (minConf : ℚ) : Bool :=
  match llm with
  | .parsed v c => if minConf ≤ c then v else false
  | _ => false

/-- `evaluateGitBasedDoc`: the fetched page and README snippet only shape
the prompt context — both control paths (`foundIndicator` true or false)
finish by returning `runLlmCheck(...)`, so the verdict is the LLM
decision. -/
def evaluateGitBasedDoc (cfg : Config) (llm : LlmOutcome) : Bool :=
  runLlmCheckDecision llm cfg.minLlmConfidence

/-- `evaluateDedicatedDocSite`: likewise, both the fetch-failure path and
the successful-analysis path finish by returning `runLlmCheck(...)`. -/
def evaluateDedicatedDocSite (cfg : Config) (llm : LlmOutcome) : Bool :=
  runLlmCheckDecision llm cfg.minLlmConfidence

/-- `DocumentationUrlValidator.isDocUrl` of doc-check-open.ts: invalid URL
format returns `false` immediately; then cache, rate limit, and the
git-host/dedicated-site branch.  Both branches attempt a content fetch and
invoke the LLM, and the result is cached. -/
def isDocUrl (cfg : Config) (parse : String → Option Url)
    (llm : LlmOutcome) (now : ℤ) (s : ValState) (url : String) :
    Bool × ValState × Effects :=
  match parse url with
  | none => (false, s, noEffects)
  | some u =>
    match getCachedResult cfg s.cache now url with
    | some v => (v, s, cacheHitEffects)
    | none =>
      let p := applyRateLimit cfg.maxRequestsPerMinute s.rate now
      let v := if isGitHost u then evaluateGitBasedDoc cfg llm
               else evaluateDedicatedDocSite cfg llm
      (v, ⟨cacheStore s.cache url v (now + p.1), p.2⟩,
       ⟨true, false, true, true, true, p.1, true⟩)

/-- The exported module-level `isDocUrl` of doc-check-open.ts: constructs
`new DocumentationUrlValidator()` with the default configuration and an
empty cache / fresh rate window, then delegates. -/
def isDocUrlExported (parse : String → Option Url) (llm : LlmOutcome)
    (now : ℤ) (url : String) : Bool × ValState × Effects :=
  isDocUrl defaultConfig parse llm now (initState now) url

end DocCheckOpen

/-! ## `src/doc-check-claude.ts` — `DocumentationDetector` (first class) -/

namespace ClaudeDetector

/-- The hostname subdomain regexes of `analyzeUrlPattern`, each an anchored
prefix alternation; the loop has no break, so every matching pattern
contributes its own score-3 evidence item.  Each inner list is the set of
prefixes of one regex (`/^docs?\./` matches prefixes `doc.` and `docs.`). -/
def subdomainPatterns : List (List String) :=
  [["doc.", "docs."], ["developer."], ["dev."], ["documentation."],
   ["api."], ["support."], ["help."], ["learn."], ["guide."], ["manual."],
   ["reference."], ["wiki."]]

/-- Evidence from the hostname subdomain patterns. -/
def subdomainEvidence (hostname : String) : List Evidence :=
  (subdomainPatterns.filter
    (fun alts => alts.any (fun p => strStarts hostname p))).map
    (fun _ => ⟨3, "Hostname matches documentation subdomain pattern"⟩)

/-- The `docDomains` list of `analyzeUrlPattern` (checked with
`hostname.endsWith`, no break, score 2 each). -/
def docDomains : List String :=
  ["readthedocs.io", "readthedocs.org", "rtfd.io", "gitbook.io",
   "docusaurus.io", "netlify.app", "github.io"]

/-- Evidence from documentation-hosting domains. -/
def domainEvidence (hostname : String) : List Evidence :=
  (docDomains.filter (fun d => strEnds hostname d)).map
    (fun _ => ⟨2, "Domain uses documentation hosting service"⟩)

/-- The `docPathPatterns` of `analyzeUrlPattern`.  Every regex is of the
form `/\/word(s?)\/?/` with all further characters optional, so each one
matches exactly when the path contains the listed base string.  `/manual`
appears twice in the source list and is kept twice.  All are
case-sensitive (no `i` flag). -/
def docPathBases : List String :=
  ["/doc", "/documentation", "/api", "/reference", "/guide", "/tutorial",
   "/manual", "/handbook", "/learn", "/getting-started", "/help",
   "/support", "/wiki", "/manual", "/cookbook", "/howto"]

/-- Evidence from documentation path keywords (no break, score 2 each). -/
def pathEvidence (pathname : String) : List Evidence :=
  (docPathBases.filter (fun b => strHas pathname b)).map
    (fun _ => ⟨2, "URL path contains documentation indicator"⟩)

/-- `pathname.endsWith('.md') || ... || pathname.endsWith('.adoc')`
(single evidence item, score 1). -/
def extensionHit (pathname : String) : Bool :=
  strEnds pathname ".md" || strEnds pathname ".html" ||
  strEnds pathname ".htm" || strEnds pathname ".rst" ||
  strEnds pathname ".adoc"

/-- One step of `/(host)\/([^\/]+)\/([^\/]+)(\/.*)?/.exec(url)` at a fixed
position: match the literal host needle, then a non-empty slash-free
owner, a slash, a non-empty slash-free repo, and the greedy optional
remainder. -/
def tryRepoAt (needle s : List Char) :
    Option (List Char × List Char × List Char) :=
  if charListStarts s needle then
    let rest0 := s.drop needle.length
    let seg1 := rest0.takeWhile (fun c => !(c == '/'))
    if seg1.isEmpty then none
    else
      match rest0.drop seg1.length with
      | '/' :: rest2 =>
        let seg2 := rest2.takeWhile (fun c => !(c == '/'))
        if seg2.isEmpty then none
        else some (seg1, seg2, rest2.drop seg2.length)
      | _ => none
  else none

/-- Leftmost match of the repository regex over the full `href`, as
`exec` computes it: try each start position from the left. -/
def repoExec (needle : List Char) : List Char → Option (List Char × List Char × List Char)
  | [] => none
  | c :: cs =>
    match tryRepoAt needle (c :: cs) with
    | some r => some r
    | none => repoExec needle cs

/-- `/docs?|documentation|guide|tutorial|manual|reference/i.test(repo)`:
an unanchored case-insensitive alternation; `docs?` and `documentation`
both reduce to containing `doc`. -/
def repoNameSuggestsDocs (repo : List Char) : Bool :=
  let r := strLower (String.mk repo)
  ["doc", "guide", "tutorial", "manual", "reference"].any
    (fun k => strHas r k)

/-- `rest.includes('/docs') || rest.includes('/doc') || ... ` for the
GitHub branch (case-sensitive). -/
def restHasDocPath (rest : List Char) : Bool :=
  let r := String.mk rest
  ["/docs", "/doc", "/documentation", "/wiki", "/README", "/guide"].any
    (fun k => strHas r k)

/-- GitHub evidence of `analyzeUrlPattern`: repository name suggesting
documentation (+2), GitHub wiki (+3), GitHub Pages (+2), documentation
path inside the repository (+2). -/
def githubEvidence (u : Url) : List Evidence :=
  match repoExec "github.com/".toList u.href.toList with
  | none => []
  | some (owner, repo, rest) =>
    (if repoNameSuggestsDocs repo then
      [⟨2, "Repository name suggests documentation"⟩] else []) ++
    (if strHas (String.mk rest) "/wiki" then
      [⟨3, "GitHub Wiki (highly likely to be documentation)"⟩] else []) ++
    (if u.hostname == String.mk owner ++ ".github.io" &&
        !(String.mk repo == String.mk owner ++ ".github.io") then
      [⟨2, "GitHub Pages (commonly used for documentation)"⟩] else []) ++
    (if restHasDocPath rest then
      [⟨2, "Repository path indicates documentation content"⟩] else [])

/-- GitLab evidence of `analyzeUrlPattern`: repository name (+2) and
GitLab wiki (`rest.includes('/wikis')`, +3). -/
def gitlabEvidence (u : Url) : List Evidence :=
  match repoExec "gitlab.com/".toList u.href.toList with
  | none => []
  | some (_, repo, rest) =>
    (if repoNameSuggestsDocs repo then
      [⟨2, "Repository name suggests documentation"⟩] else []) ++
    (if strHas (String.mk rest) "/wikis" then
      [⟨3, "GitLab Wiki (highly likely to be documentation)"⟩] else [])

/-- BitBucket evidence of `analyzeUrlPattern`: repository name (+2) and
wiki (`rest.includes('/wiki')`, +3). -/
def bitbucketEvidence (u : Url) : List Evidence :=
  match repoExec "bitbucket.org/".toList u.href.toList with
  | none => []
  | some (_, repo, rest) =>
    (if repoNameSuggestsDocs repo then
      [⟨2, "Repository name suggests documentation"⟩] else []) ++
    (if strHas (String.mk rest) "/wiki" then
      [⟨3, "BitBucket Wiki (highly likely to be documentation)"⟩] else [])

/-- All evidence collected by `DocumentationDetector.analyzeUrlPattern`,
in source order. -/
def detectorEvidence (u : Url) : List Evidence :=
  subdomainEvidence u.hostname ++
  domainEvidence u.hostname ++
  pathEvidence u.pathname ++
  (if extensionHit u.pathname then
    [⟨1, "URL ends with documentation file extension"⟩] else []) ++
  githubEvidence u ++ gitlabEvidence u ++ bitbucketEvidence u

/-- `isRepo` is set when any of the three platform regexes matched. -/
def detectorIsRepo (u : Url) : Bool :=
  (repoExec "github.com/".toList u.href.toList).isSome ||
  (repoExec "gitlab.com/".toList u.href.toList).isSome ||
  (repoExec "bitbucket.org/".toList u.href.toList).isSome

/-- The confidence curve of `analyzeUrlPattern`:
`0.5` for `totalScore = 0`, otherwise
`0.5 + Math.min(0.4, |totalScore| * 0.05) * Math.sign(totalScore)`. -/
def detectorConfidence (t : ℤ) : ℚ :=
  if t = 0 then 1/2
  else 1/2 + min (2/5) ((t.natAbs : ℚ) * (1/20)) * (if 0 < t then 1 else -1)

/-- Result record of `DocumentationDetector.analyzeUrlPattern` (the
`repoInfo` payload is carried by `detectorIsRepo`/`repoExec` above). -/
structure DetectorAnalysis where
  isLikelyDoc : Bool
  isRepo : Bool
  confidence : ℚ
  evidence : List Evidence
deriving DecidableEq

/-- `DocumentationDetector.analyzeUrlPattern`. -/
def analyzeUrlPattern (u : Url) : DetectorAnalysis :=
  let ev := detectorEvidence u
  let t := evTotal ev
  ⟨decide (0 < t), detectorIsRepo u, detectorConfidence t, ev⟩

/-- The aggregation at the end of
`DocumentationDetector.analyzeRepositoryContent` (lines 657–698): without
an LLM result the verdict is `totalScore > 0` at confidence
`0.5 + Math.min(0.4, |totalScore| * 0.05)`; with an LLM result the
confidence is `0.3 + llm.confidence * 0.7` and the LLM verdict is trusted
only when `|llm.confidence - 0.5| > 0.3`. -/
def repoAggregate (contentEv urlEv : List Evidence)
    (llm : Option (Bool × ℚ)) : Bool × ℚ :=
  let t := evTotal contentEv + evTotal urlEv
  match llm with
  | some (b, c) =>
    ((if 3/10 < |c - 1/2| then b else decide (0 < t)), 3/10 + c * (7/10))
  | none =>
    (decide (0 < t), 1/2 + min (2/5) ((t.natAbs : ℚ) * (1/20)))

/-- Outcome of `fetchPageContent`: `axios.get` either throws (propagated
as an exception into the outer catch) or returns the HTML body. -/
inductive DetectorFetch where
  | failure
  | ok (html : String)
deriving DecidableEq

/-- `DocumentationDetector.isDocUrl`: validate, analyze the URL pattern,
short-circuit when `urlAnalysis.confidence > 0.9`, otherwise fetch page
content (any error is caught and yields the `error` result) and hand off
to repository or dedicated-docs content analysis.  The content-analysis
stages depend on cheerio and the optional LLM and are supplied as oracle
functions of the fetched HTML and the URL analysis; the second component
of the result records whether a content fetch was attempted. -/
def isDocUrlRun (parse : String → Option Url) (fetch : DetectorFetch)
    (repoAnalyze docsAnalyze : String → DetectorAnalysis → DocResult)
    (url : String) : DocResult × Bool :=
  match parse url with
  | none => (⟨false, 3/10, "error"⟩, false)
  | some u =>
    let a := analyzeUrlPattern u
    if 9/10 < a.confidence then
      (⟨a.isLikelyDoc, a.confidence, "url_pattern"⟩, false)
    else
      match fetch with
      | .failure => (⟨false, 3/10, "error"⟩, true)
      | .ok html =>
        (if a.isRepo then repoAnalyze html a else docsAnalyze html a, true)

/-- The exported module-level `isDocUrl` of doc-check-claude.ts: a
brand-new `DocumentationDetector(options)` per call, projected to the
boolean field. -/
def isDocUrlExported (parse : String → Option Url) (fetch : DetectorFetch)
    (repoAnalyze docsAnalyze : String → DetectorAnalysis → DocResult)
    (url : String) : Bool :=
  (isDocUrlRun parse fetch repoAnalyze docsAnalyze url).1.isDocumentation

end ClaudeDetector

/-! ## `src/doc-check-claude.ts` — second `DocumentationUrlValidator`
(strong-signal short-circuit) -/

namespace ClaudeValidator

/-- The `docHostnamePatterns` of the validator's `analyzeUrlPattern`:
anchored prefix patterns plus the one inner pattern `/\.docs?\./`.  The
loop breaks at the first match, records a single score-3 evidence item and
sets the strong-documentation flag. -/
def hostnameStrongHit (hostname : String) : Bool :=
  strStarts hostname "doc." || strStarts hostname "docs." ||
  strHas hostname ".doc." || strHas hostname ".docs." ||
  strStarts hostname "developer." || strStarts hostname "dev." ||
  strStarts hostname "reference." || strStarts hostname "api." ||
  strStarts hostname "learn." || strStarts hostname "help." ||
  strStarts hostname "support." || strStarts hostname "wiki."

/-- The `docPlatforms` list of the validator variant (checked with
`hostname.includes`, break on first match, score 4, strong flag). -/
def docPlatforms : List String :=
  ["readthedocs.io", "readthedocs.org", "gitbook.io", "gitbook.com",
   "docusaurus.io", "mkdocs.org", "docsify.js.org", "docz.site",
   "vuepress.vuejs.org", "storybook.js.org", "swagger.io"]

/-- `docPlatforms.some(p => hostname.includes(p))` (via the loop). -/
def platformHit (hostname : String) : Bool :=
  docPlatforms.any (fun p => strHas hostname p)

/-- The `docPathPatterns` of the validator's `analyzeUrlPattern` (break on
first match, one score-2 evidence item).  Each regex reduces to the
substring / anchored-suffix tests below; `/\/docs?\//` is the only
case-sensitive one. -/
def pathDocHit (pathname : String) : Bool :=
  let pl := strLower pathname
  -- /\/docs?\/?$/i
  (strEnds pl "/doc" || strEnds pl "/docs" || strEnds pl "/doc/" ||
   strEnds pl "/docs/") ||
  -- /\/docs?\// (case-sensitive)
  (strHas pathname "/doc/" || strHas pathname "/docs/") ||
  strHas pl "/reference" || strHas pl "/documentation" ||
  strHas pl "/guide" || strHas pl "/tutorial" || strHas pl "/learn" ||
  strHas pl "/manual" || strHas pl "/help" ||
  -- /\/api-?docs?\/?/i
  (strHas pl "/apidoc" || strHas pl "/api-doc") ||
  -- /\/api\/docs?\/?/i
  strHas pl "/api/doc" ||
  strHas pl "/developer"

/-- `/\.(md|html?|txt|pdf|rst|adoc|asciidoc|dita|wiki)$/i`. -/
def extensionHit (pathname : String) : Bool :=
  let pl := strLower pathname
  [".md", ".html", ".htm", ".txt", ".pdf", ".rst", ".adoc", ".asciidoc",
   ".dita", ".wiki"].any (fun e => strEnds pl e)

/-- One trailing `/` stripped, for anchored patterns ending in `\/?$`. -/
def stripTrailSlash (s : String) : String :=
  match s.toList.reverse with
  | '/' :: r => String.mk r.reverse
  | _ => s

/-- `/\/base\/[^\/]+\/?$/i` on the lowercased path: after stripping one
trailing slash, the last segment is non-empty and slash-free and is
preceded by `/base/`. -/
def lastSegUnder (base : String) (pl : String) : Bool :=
  let rev := (stripTrailSlash pl).toList.reverse
  let seg := rev.takeWhile (fun c => !(c == '/'))
  !seg.isEmpty &&
  charListStarts (rev.drop seg.length)
    (("/" ++ base ++ "/").toList.reverse)

/-- The `nonDocPathPatterns` of the validator's `analyzeUrlPattern`
(break on first match, one score-(-3) item, strong non-doc flag). -/
def nonDocHit (pathname : String) : Bool :=
  let pl := strLower pathname
  strHas pl "/shop" || strHas pl "/store" || strHas pl "/cart" ||
  strHas pl "/checkout" || strHas pl "/buy" || strHas pl "/pricing" ||
  strHas pl "/login" || strHas pl "/signup" || strHas pl "/register" ||
  strHas pl "/account" ||
  lastSegUnder "blog" pl || lastSegUnder "news" pl ||
  strEnds (stripTrailSlash pl) "/about" ||
  strEnds (stripTrailSlash pl) "/contact"

/-- `pathname.match(/^\/([^\/]+)\/([^\/]+)(\/.*)?$/)`: an anchored split
into owner, repo and the remaining path. -/
def pathMatch2 (pathname : String) : Option (String × String × String) :=
  match pathname.toList with
  | '/' :: rest =>
    let s1 := rest.takeWhile (fun c => !(c == '/'))
    if s1.isEmpty then none
    else
      match rest.drop s1.length with
      | '/' :: rest2 =>
        let s2 := rest2.takeWhile (fun c => !(c == '/'))
        if s2.isEmpty then none
        else some (String.mk s1, String.mk s2,
                   String.mk (rest2.drop s2.length))
      | _ => none
  | _ => none

/-- `RepositoryInfo` as returned by `checkRepositoryPlatform`. -/
structure VRepoInfo where
  platform : String
  owner : String
  repo : String
  isWiki : Bool
  isPages : Bool
  isReadme : Bool
  path : String
deriving DecidableEq

/-- The `*.github.io` arm of the GitHub branch: owner from the hostname,
repo and path from splitting the pathname. -/
def githubIoInfo (u : Url) : VRepoInfo :=
  let owner := String.mk (removeFirst u.hostname.toList ".github.io".toList)
  let parts := splitOnChar '/' u.pathname.toList
  let repo := String.mk (parts.getD 1 [])
  let path := String.mk ('/' :: joinSlash (parts.drop 2))
  ⟨"GitHub", owner, repo,
   strHas u.pathname "/wiki/",
   strEnds u.hostname ".github.io" || strStarts path "/docs/" ||
     strStarts path "/doc/",
   strEnds u.pathname "README.md", path⟩

/-- The `*.gitlab.io` arm of the GitLab branch, with its
`hostname.split('.')` owner/repo recovery. -/
def gitlabIoInfo (u : Url) : VRepoInfo :=
  let hParts := splitOnChar '.' u.hostname.toList
  let owner := String.mk (hParts.getD 0 [])
  let pParts := splitOnChar '/' u.pathname.toList
  let repo := if 2 < hParts.length then String.mk (hParts.getD 1 [])
              else String.mk (pParts.getD 1 [])
  let path := if 2 < hParts.length then u.pathname
              else String.mk ('/' :: joinSlash (pParts.drop 2))
  ⟨"GitLab", owner, repo,
   strHas u.pathname "/wikis/",
   strHas u.hostname ".gitlab.io" || strStarts path "/docs/" ||
     strStarts path "/doc/",
   strEnds u.pathname "README.md", path⟩

/-- `checkRepositoryPlatform` of the validator variant. -/
def checkRepositoryPlatform (u : Url) : Option VRepoInfo :=
  if u.hostname == "github.com" || strEnds u.hostname ".github.io" then
    if strEnds u.hostname ".github.io" then some (githubIoInfo u)
    else
      match pathMatch2 u.pathname with
      | some (o, r, p) =>
        some ⟨"GitHub", o, r,
              strHas u.pathname "/wiki/",
              strEnds u.hostname ".github.io" || strStarts p "/docs/" ||
                strStarts p "/doc/",
              strEnds u.pathname "README.md", p⟩
      | none => none
  else if u.hostname == "gitlab.com" || strHas u.hostname ".gitlab.io" then
    if strHas u.hostname ".gitlab.io" then some (gitlabIoInfo u)
    else
      match pathMatch2 u.pathname with
      | some (o, r, p) =>
        some ⟨"GitLab", o, r,
              strHas u.pathname "/wikis/",
              strHas u.hostname ".gitlab.io" || strStarts p "/docs/" ||
                strStarts p "/doc/",
              strEnds u.pathname "README.md", p⟩
      | none => none
  else if u.hostname == "bitbucket.org" then
    match pathMatch2 u.pathname with
    | some (o, r, p) =>
      some ⟨"Bitbucket", o, r,
            strHas u.pathname "/wiki/", false,
            strEnds u.pathname "README.md", p⟩
    | none => none
  else none

/-- `/\/blob\/.*\.(md|rst|adoc|asciidoc)$/i`: since no character of
`/blob/` can overlap the extension suffix, this is containment of
`/blob/` plus an extension suffix, on the lowercased path. -/
def blobDocFile (pathname : String) : Bool :=
  let pl := strLower pathname
  strHas pl "/blob/" &&
  (strEnds pl ".md" || strEnds pl ".rst" || strEnds pl ".adoc" ||
   strEnds pl ".asciidoc")

/-- The repository-derived evidence chain of the validator's
`analyzeUrlPattern`. -/
def repoEvidence (u : Url) (ri : VRepoInfo) : List Evidence :=
  if ri.isWiki || ri.isPages then
    [⟨3, "Repository wiki or pages (likely documentation)"⟩]
  else if ri.isReadme then
    [⟨1, "README file (possible documentation)"⟩]
  else if blobDocFile u.pathname then
    [⟨1, "Repository documentation file"⟩]
  else if !strHas u.pathname "/blob/" && !strHas u.pathname "/tree/" then
    [⟨-1, "Repository root (less likely to be dedicated documentation)"⟩]
  else []

/-- Result record of the validator's `analyzeUrlPattern`. -/
structure VAnalysis where
  isLikelyDoc : Bool
  isStrongDocSignal : Bool
  isStrongNonDocSignal : Bool
  repoInfo : Option VRepoInfo
  evidence : List Evidence
deriving DecidableEq

/-- The validator's `analyzeUrlPattern`: hostname patterns and platform
hits set `isStrongDocSignal`, commerce/marketing path patterns set
`isStrongNonDocSignal`, repository wiki/pages also set the strong flag;
`isLikelyDoc = totalScore > 0`. -/
def analyzeUrlPattern (u : Url) : VAnalysis :=
  let hostHit := hostnameStrongHit u.hostname
  let platHit := platformHit u.hostname
  let pathHit := pathDocHit u.pathname
  let extHit := extensionHit u.pathname
  let nonDoc := nonDocHit u.pathname
  let repoInfo := checkRepositoryPlatform u
  let repoEv : List Evidence :=
    match repoInfo with
    | some ri => repoEvidence u ri
    | none => []
  let wikiPages : Bool :=
    match repoInfo with
    | some ri => ri.isWiki || ri.isPages
    | none => false
  let ev : List Evidence :=
    (if hostHit then [⟨3, "Hostname matches documentation pattern"⟩]
     else []) ++
    (if platHit then [⟨4, "Hosted on documentation platform"⟩] else []) ++
    (if pathHit then [⟨2, "Path matches documentation pattern"⟩]
     else []) ++
    (if extHit then [⟨1, "Path ends with documentation file extension"⟩]
     else []) ++
    (if nonDoc then [⟨-3, "Path matches non-documentation pattern"⟩]
     else []) ++ repoEv
  ⟨decide (0 < evTotal ev), hostHit || platHit || wikiPages, nonDoc,
   repoInfo, ev⟩

/-- Control-flow-relevant configuration of the validator variant. -/
structure VConfig where
  enableLLM : Bool
  cacheTTL : ℤ
deriving DecidableEq

/-- The validator's result cache keyed by URL. -/
abbrev VCacheMap : Type := List (String × DocResult × ℤ)

/-- State of the validator: its `DocResult` cache. -/
structure VState where
  cache : VCacheMap
deriving DecidableEq

/-- Modelled from the spec: the body of `checkCache` is referenced at
doc-check-claude.ts line 1027 but is missing from src/ (the file is
truncated before the helper methods).  Per the spec's `CacheEntry`
lifecycle, an entry is expired once `now − insertedAt > ttl` and is
lazily ignored on read. -/
def vCheckCache (cache : VCacheMap) (ttlSeconds now : ℤ) (url : String) :
    Option DocResult :=
  match cache.find? (fun e => e.1 == url) with
  | some e => if ttlSeconds * 1000 < now - e.2.2 then none else some e.2.1
  | none => none

/-- Modelled from the spec: `saveToCache` (missing from src/) stores the
final result keyed by URL with the current timestamp. -/
def vSaveToCache (cache : VCacheMap) (url : String) (r : DocResult)
    (now : ℤ) : VCacheMap :=
  (url, r, now) :: cache

/-- Outcome of the `axios.get` inside `analyzeContent`: the request throws,
or returns with a status code and data that may or may not be a string. -/
inductive VFetch where
  | failure
  | ok (status : ℕ) (isString : Bool) (html : String)
deriving DecidableEq

/-- `analyzeContent` of the validator variant: fetch the page; any throw,
non-200 status or non-string body falls into the catch, which returns the
URL-pattern verdict at confidence 0.6 with `source =
'url_pattern_fallback'`; on success dispatch on `repoInfo` to the
repository or dedicated-docs content analysis (cheerio/LLM collaborators,
supplied as oracle functions receiving `enableLLM` and the HTML). -/
def vAnalyzeContent (cfg : VConfig) (a : VAnalysis) (fetch : VFetch)
    (repoAnalyze docsAnalyze : Bool → String → DocResult) : DocResult :=
  match fetch with
  | .ok status isString html =>
    if status == 200 && isString then
      match a.repoInfo with
      | some _ => repoAnalyze cfg.enableLLM html
      | none => docsAnalyze cfg.enableLLM html
    else ⟨a.isLikelyDoc, 3/5, "url_pattern_fallback"⟩
  | .failure => ⟨a.isLikelyDoc, 3/5, "url_pattern_fallback"⟩

/-- Return value of the validator's `isDocUrl`
(`Promise<boolean | DocResult>`): the catch path returns the bare boolean
`false`, the other paths return a `DocResult` (the missing `returnResult`
helper is modelled from the spec as returning the classification
result). -/
inductive VRet where
  | bool (b : Bool)
  | res (r : DocResult)
deriving DecidableEq

/-- Observable effects of one validator call (this class has no rate
limiter). -/
structure VEffects where
  cacheHit : Bool
  fetched : Bool
  cacheWrite : Bool
deriving DecidableEq

/-- The validator's `isDocUrl`: invalid URL throws into the catch
(`false`); a cached entry is returned as-is; a strong positive pattern
signal returns `isDocumentation = true` and a strong negative one
`isDocumentation = false`, both with confidence fixed at `0.85` and
`source = 'url_pattern'` and without fetching; otherwise the content is
fetched and analyzed.  Every computed result is saved to the cache. -/
def isDocUrl (cfg : VConfig) (parse : String → Option Url) (fetch : VFetch)
    (repoAnalyze docsAnalyze : Bool → String → DocResult) (now : ℤ)
    (s : VState) (url : String) : VRet × VState × VEffects :=
  match parse url with
  | none => (.bool false, s, ⟨false, false, false⟩)
  | some u =>
    match vCheckCache s.cache cfg.cacheTTL now url with
    | some r => (.res r, s, ⟨true, false, false⟩)
    | none =>
      let a := analyzeUrlPattern u
      if a.isStrongDocSignal then
        let r : DocResult := ⟨true, 17/20, "url_pattern"⟩
        (.res r, ⟨vSaveToCache s.cache url r now⟩, ⟨false, false, true⟩)
      else if a.isStrongNonDocSignal then
        let r : DocResult := ⟨false, 17/20, "url_pattern"⟩
        (.res r, ⟨vSaveToCache s.cache url r now⟩, ⟨false, false, true⟩)
      else
        let r := vAnalyzeContent cfg a fetch repoAnalyze docsAnalyze
        (.res r, ⟨vSaveToCache s.cache url r now⟩, ⟨false, true, true⟩)

end ClaudeValidator

/-! ## Helper lemmas -/

/-- Folding score addition from any accumulator equals the accumulator plus
the sum of the scores. -/
theorem foldl_add_score (l : List Evidence) (a : ℤ) :
    l.foldl (fun s e => s + e.score) a = a + (l.map Evidence.score).sum := by
  induction l generalizing a with
  | nil => simp
  | cons x xs ih => simp [List.foldl_cons, ih, add_assoc]

/-- `evTotal` is the sum of the evidence scores. -/
theorem evTotal_eq_sum (l : List Evidence) :
    evTotal l = (l.map Evidence.score).sum := by
  simpa [evTotal] using foldl_add_score l 0

/-- A rate-limit call on a fresh window (count 0) with a positive budget
delays nothing and sets the count to 1. -/
theorem applyRateLimit_fresh (m : ℕ) (rt now : ℤ) (hm : 1 ≤ m) :
    DocCheck.applyRateLimit m ⟨0, rt⟩ now
      = (0, ⟨1, if rt < now then now + 60000 else rt⟩) := by
  simp only [DocCheck.applyRateLimit]
  by_cases h : rt < now
  · simp [h]
    omega
  · simp [h]
    omega

/-- When the window is still open and the budget is exhausted, the rate
limiter waits exactly the remaining window time, then resets: count 1,
next reset one minute after the old reset instant. -/
theorem applyRateLimit_exhausted (m : ℕ) (r : RateState) (now : ℤ)
    (h1 : now ≤ r.resetTime) (h2 : m ≤ r.requestCount) :
    DocCheck.applyRateLimit m r now
      = (r.resetTime - now, ⟨1, r.resetTime + 60000⟩) := by
  simp only [DocCheck.applyRateLimit]
  rw [if_neg (by omega : ¬(r.resetTime < now))]
  rw [if_pos h2]
  have h3 : now + (r.resetTime - now) + 60000 = r.resetTime + 60000 := by
    ring
  rw [h3]

/-- The rate limiter's delay is never negative (and in particular the call
never fails: it always returns a successor state). -/
theorem applyRateLimit_delay_nonneg (m : ℕ) (r : RateState) (now : ℤ) :
    0 ≤ (DocCheck.applyRateLimit m r now).1 := by
  simp only [DocCheck.applyRateLimit]
  split_ifs with h1 h2 h3
  · simp
  · simp
  · simp
    omega
  · simp

/-- Up to the budget, burst calls at one instant are delay-free and only
increment the counter. -/
theorem rateRun_within_budget (m : ℕ) (now : ℤ) :
    ∀ n, n ≤ m → DocCheck.rateRun m now n = (⟨n, now + 60000⟩, 0) := by
  intro n
  induction n with
  | zero => intro _; rfl
  | succ k ih =>
    intro hk
    simp only [DocCheck.rateRun, ih (Nat.le_of_succ_le hk),
      DocCheck.applyRateLimit]
    rw [if_neg (by omega : ¬((now + 60000 : ℤ) < now))]
    rw [if_neg (by omega : ¬(m ≤ k))]

/-! ## C1 -/

/-- C1: for every input string on which `new URL` parsing fails, both
public `isDocUrl` entry points return `false` with the validator state
unchanged and no observable side effect (`noEffects`): the cache is
neither read nor written, no content fetch is attempted, no rate-limit
budget is consumed and the arbiter is never invoked. -/
theorem c1_invalid_url_fails_without_side_effects
    (cfgA : DocCheck.Config) (cfgB : DocCheckOpen.Config)
    (parse : String → Option Url) (fetch : DocCheck.FetchOutcome)
    (llmA llmB : LlmOutcome) (nowA nowB : ℤ) (sA sB : ValState)
    (url : String) (h : parse url = none) :
    DocCheck.isDocUrl cfgA parse fetch llmA nowA sA url
      = (false, sA, noEffects) ∧
    DocCheckOpen.isDocUrl cfgB parse llmB nowB sB url
      = (false, sB, noEffects) := by
  constructor
  · unfold DocCheck.isDocUrl
    rw [h]
  · unfold DocCheckOpen.isDocUrl
    rw [h]

/-- Witness for C1 at the concrete non-URL input `"not a url"` with a
parse collaborator that rejects it. -/
theorem c1_witness :
    DocCheck.isDocUrl DocCheck.defaultConfig (fun _ => none)
        DocCheck.FetchOutcome.nonString LlmOutcome.apiFailure 0
        (initState 0) "not a url"
      = (false, initState 0, noEffects) ∧
    DocCheckOpen.isDocUrl DocCheckOpen.defaultConfig (fun _ => none)
        LlmOutcome.apiFailure 0 (initState 0) "not a url"
      = (false, initState 0, noEffects) :=
  c1_invalid_url_fails_without_side_effects DocCheck.defaultConfig
    DocCheckOpen.defaultConfig (fun _ => none)
    DocCheck.FetchOutcome.nonString LlmOutcome.apiFailure
    LlmOutcome.apiFailure 0 0 (initState 0) (initState 0) "not a url" rfl

/-! ## C6 -/

/-- C6: the rate limiter never fails a call; when the per-minute budget is
exhausted inside a still-open window the call is suspended for exactly the
remaining window time and then proceeds with the window and counter reset
(count restarts at 1, the next reset one minute later); the delay is never
negative; a burst of calls at one instant is delay-free up to the budget,
and the `(m+1)`-th call of the burst observes the full remaining window
(60000 ms).  The doc-check-open.ts limiter is the same function. -/
theorem c6_rate_limit_waits_instead_of_failing :
    (∀ (m : ℕ) (r : RateState) (now : ℤ),
        now ≤ r.resetTime → m ≤ r.requestCount →
        DocCheck.applyRateLimit m r now
          = (r.resetTime - now, ⟨1, r.resetTime + 60000⟩)) ∧
    (∀ (m : ℕ) (r : RateState) (now : ℤ),
        0 ≤ (DocCheck.applyRateLimit m r now).1) ∧
    (∀ (m : ℕ) (now : ℤ) (n : ℕ), n ≤ m →
        DocCheck.rateRun m now n = (⟨n, now + 60000⟩, 0)) ∧
    (∀ (m : ℕ) (now : ℤ), 1 ≤ m →
        DocCheck.rateRun m now (m + 1)
          = (⟨1, now + 60000 + 60000⟩, 60000)) ∧
    (∀ (m : ℕ) (r : RateState) (now : ℤ),
        DocCheckOpen.applyRateLimit m r now
          = DocCheck.applyRateLimit m r now) := by
  refine ⟨applyRateLimit_exhausted, applyRateLimit_delay_nonneg,
    fun m now n h => rateRun_within_budget m now n h, ?_, fun _ _ _ => rfl⟩
  intro m now hm
  have h1 := rateRun_within_budget m now m le_rfl
  have h2 := applyRateLimit_exhausted m ⟨m, now + 60000⟩ now
    (by show now ≤ now + 60000; omega) le_rfl
  simp only [DocCheck.rateRun, h1, h2]
  have h3 : now + 60000 - now = (60000 : ℤ) := by ring
  simp only [h3]

/-- Witness for C6: budget 2, three calls at a single instant — the first
two are delay-free, the third waits the full minute and proceeds. -/
theorem c6_witness :
    DocCheck.applyRateLimit 2 ⟨2, 60000⟩ 0 = (60000, ⟨1, 120000⟩) ∧
    DocCheck.rateRun 2 5 2 = (⟨2, 5 + 60000⟩, 0) ∧
    DocCheck.rateRun 2 5 3 = (⟨1, 5 + 60000 + 60000⟩, 60000) :=
  ⟨by
    have h := c6_rate_limit_waits_instead_of_failing.1 2 ⟨2, 60000⟩ 0
      (by norm_num) (by norm_num)
    simpa using h,
   c6_rate_limit_waits_instead_of_failing.2.2.1 2 5 2 (by norm_num),
   c6_rate_limit_waits_instead_of_failing.2.2.2.1 2 5 (by norm_num)⟩

/-! ## C8 -/

/-- C8 (corrected): cache lookup semantics of the two validators.  In
doc-check-open.ts an entry is expired exactly when
`now − insertedAt > ttl·1000`, so a lookup at age exactly the TTL still
returns the stored result.  In doc-check.ts the lookup succeeds only when
`now − insertedAt < ttl·1000` strictly, so age exactly the TTL is already
a miss.  Expiry is lazy in both: a lookup never mutates the cache, there
is no background sweep. -/
theorem c8_ttl_boundary_semantics
    (cfgA : DocCheck.Config) (cfgB : DocCheckOpen.Config)
    (url : String) (r : Bool) (ts now : ℤ) :
    (DocCheck.checkCache cfgA [(url, r, ts)] now url
       = if now - ts < cfgA.cacheTtl * 1000 then some r else none) ∧
    (DocCheckOpen.getCachedResult cfgB [(url, r, ts)] now url
       = if now - ts ≤ cfgB.cacheTtl * 1000 then some r else none) ∧
    DocCheck.checkCache cfgA [] now url = none ∧
    DocCheckOpen.getCachedResult cfgB [] now url = none := by
  refine ⟨?_, ?_, rfl, rfl⟩
  · unfold DocCheck.checkCache cacheLookup
    simp [List.find?]
  · unfold DocCheckOpen.getCachedResult cacheLookup
    simp only [List.find?, beq_self_eq_true]
    split_ifs with h1 h2 <;> first | rfl | (exfalso; omega)

/-- Counterexample for C8 as stated: with `cacheTtl = 1` second, an entry
inserted at time 0 and looked up at time 1000 ms has age exactly the TTL;
the claim says the stored result (`true`) must be returned, but
doc-check.ts's `checkCache` misses. -/
theorem c8_counterexample :
    DocCheck.checkCache ⟨10, 7/10, 4/5, 1⟩ [("u", true, 0)] 1000 "u"
      = none := rfl

/-! ## Equation lemmas for `DocCheck.isDocUrl` -/

/-- A valid URL whose cache entry is live is answered from the cache. -/
theorem docCheck_isDocUrl_hit (cfg : DocCheck.Config)
    (parse : String → Option Url) (fetch : DocCheck.FetchOutcome)
    (llm : LlmOutcome) (now : ℤ) (s : ValState) (url : String) (u : Url)
    (v : Bool) (hp : parse url = some u)
    (hc : DocCheck.checkCache cfg s.cache now url = some v) :
    DocCheck.isDocUrl cfg parse fetch llm now s url
      = (v, s, cacheHitEffects) := by
  simp only [DocCheck.isDocUrl, hp, hc]

/-- A valid URL missing the cache whose heuristics are confident enough is
decided by the heuristics: the verdict is cached, the LLM is not called. -/
theorem docCheck_isDocUrl_heur (cfg : DocCheck.Config)
    (parse : String → Option Url) (fetch : DocCheck.FetchOutcome)
    (llm : LlmOutcome) (now : ℤ) (s : ValState) (url : String) (u : Url)
    (hp : parse url = some u)
    (hc : DocCheck.checkCache cfg s.cache now url = none)
    (hconf : cfg.minHeuristicConfidence
        ≤ (DocCheck.applyHeuristics u fetch).confidence) :
    DocCheck.isDocUrl cfg parse fetch llm now s url
      = ((DocCheck.applyHeuristics u fetch).isDoc,
         ⟨cacheStore s.cache url (DocCheck.applyHeuristics u fetch).isDoc
            (now + (DocCheck.applyRateLimit cfg.maxRequestsPerMinute
              s.rate now).1),
          (DocCheck.applyRateLimit cfg.maxRequestsPerMinute s.rate now).2⟩,
         ⟨true, false, true,
          (DocCheck.applyHeuristics u fetch).fetchAttempted, false,
          (DocCheck.applyRateLimit cfg.maxRequestsPerMinute s.rate now).1,
          true⟩) := by
  simp only [DocCheck.isDocUrl, hp, hc]
  rw [if_pos hconf]

/-- A valid URL missing the cache whose heuristics are not confident
enough is decided by the LLM arbiter; the arbiter's decision is cached. -/
theorem docCheck_isDocUrl_llm (cfg : DocCheck.Config)
    (parse : String → Option Url) (fetch : DocCheck.FetchOutcome)
    (llm : LlmOutcome) (now : ℤ) (s : ValState) (url : String) (u : Url)
    (hp : parse url = some u)
    (hc : DocCheck.checkCache cfg s.cache now url = none)
    (hconf : (DocCheck.applyHeuristics u fetch).confidence
        < cfg.minHeuristicConfidence) :
    DocCheck.isDocUrl cfg parse fetch llm now s url
      = (DocCheck.askLlmDecision llm cfg.minLlmConfidence,
         ⟨cacheStore s.cache url
            (DocCheck.askLlmDecision llm cfg.minLlmConfidence)
            (now + (DocCheck.applyRateLimit cfg.maxRequestsPerMinute
              s.rate now).1),
          (DocCheck.applyRateLimit cfg.maxRequestsPerMinute s.rate now).2⟩,
         ⟨true, false, true, true, true,
          (DocCheck.applyRateLimit cfg.maxRequestsPerMinute s.rate now).1,
          true⟩) := by
  simp only [DocCheck.isDocUrl, hp, hc]
  rw [if_neg (not_le.mpr hconf)]

/-! ## Confidence-curve lemmas for the claude variant -/

/-- The distance of the detector confidence from the neutral `0.5` is
exactly `min 0.4 (|totalScore| · 0.05)`. -/
theorem detectorConfidence_abs (t : ℤ) :
    |ClaudeDetector.detectorConfidence t - 1/2|
      = min (2/5) ((t.natAbs : ℚ) * (1/20)) := by
  have hm : (0:ℚ) ≤ min (2/5) ((t.natAbs : ℚ) * (1/20)) :=
    le_min (by norm_num) (by positivity)
  unfold ClaudeDetector.detectorConfidence
  rcases lt_trichotomy t 0 with h | h | h
  · rw [if_neg (by omega), if_neg (by omega : ¬(0 < t))]
    have he : (1:ℚ)/2 + min (2/5) ((t.natAbs : ℚ) * (1/20)) * (-1) - 1/2
        = -(min (2/5) ((t.natAbs : ℚ) * (1/20))) := by ring
    rw [he, abs_neg, abs_of_nonneg hm]
  · subst h
    rw [if_pos rfl]
    rw [show ((0:ℤ).natAbs : ℚ) * (1/20) = 0 by norm_num]
    rw [min_eq_right (by norm_num : (0:ℚ) ≤ 2/5)]
    norm_num
  · rw [if_neg (by omega), if_pos h]
    have he : (1:ℚ)/2 + min (2/5) ((t.natAbs : ℚ) * (1/20)) * 1 - 1/2
        = min (2/5) ((t.natAbs : ℚ) * (1/20)) := by ring
    rw [he, abs_of_nonneg hm]

/-- The detector confidence always lies in `[0.1, 0.9]`. -/
theorem detectorConfidence_bounds (t : ℤ) :
    1/10 ≤ ClaudeDetector.detectorConfidence t ∧
    ClaudeDetector.detectorConfidence t ≤ 9/10 := by
  have h2 : |ClaudeDetector.detectorConfidence t - 1/2| ≤ 2/5 := by
    rw [detectorConfidence_abs]
    exact min_le_left _ _
  rw [abs_le] at h2
  constructor <;> linarith [h2.1, h2.2]

/-- The detector confidence's distance from `0.5` is monotone in the
absolute total score. -/
theorem detectorConfidence_mono (s t : ℤ) (h : s.natAbs ≤ t.natAbs) :
    |ClaudeDetector.detectorConfidence s - 1/2|
      ≤ |ClaudeDetector.detectorConfidence t - 1/2| := by
  rw [detectorConfidence_abs, detectorConfidence_abs]
  refine min_le_min le_rfl ?_
  have hc : ((s.natAbs : ℚ)) ≤ (t.natAbs : ℚ) := by
    exact_mod_cast h
  nlinarith

/-! ## C3 -/

/-- C3 (corrected): confidence bounds of the local aggregators.  The
claude-variant URL-pattern aggregator satisfies the claim: its confidence
lies in `[0.1, 0.9]` (strictly inside `(0,1)`), is `0.5` at total score 0,
and its distance from `0.5` is non-decreasing in `|totalScore|`.  The
doc-check.ts aggregator is clamped to the full interval `[0, 1]` and
attains the endpoints exactly: one unopposed positive evidence point
already yields confidence exactly 1 (and one unopposed negative point
exactly 0), so its confidence is not strictly between 0 and 1 and there is
no interior floor/ceiling; it does return `0.5` on an empty evidence
set. -/
theorem c3_confidence_bounds_corrected :
    (∀ t : ℤ, 1/10 ≤ ClaudeDetector.detectorConfidence t ∧
        ClaudeDetector.detectorConfidence t ≤ 9/10 ∧
        0 < ClaudeDetector.detectorConfidence t ∧
        ClaudeDetector.detectorConfidence t < 1) ∧
    ClaudeDetector.detectorConfidence 0 = 1/2 ∧
    (∀ s t : ℤ, s.natAbs ≤ t.natAbs →
        |ClaudeDetector.detectorConfidence s - 1/2|
          ≤ |ClaudeDetector.detectorConfidence t - 1/2|) ∧
    (∀ (d n : ℕ) (ff : Bool),
        0 ≤ DocCheck.confidenceFormula d n ff ∧
        DocCheck.confidenceFormula d n ff ≤ 1) ∧
    DocCheck.confidenceFormula 0 0 false = 1/2 ∧
    DocCheck.confidenceFormula 1 0 false = 1 ∧
    DocCheck.confidenceFormula 0 1 false = 0 := by
  refine ⟨?_, rfl, detectorConfidence_mono, ?_, ?_, ?_, ?_⟩
  · intro t
    obtain ⟨h1, h2⟩ := detectorConfidence_bounds t
    exact ⟨h1, h2, by linarith, by linarith⟩
  · intro d n ff
    unfold DocCheck.confidenceFormula
    exact ⟨le_max_left 0 _, max_le (by norm_num) (min_le_left 1 _)⟩
  · norm_num [DocCheck.confidenceFormula]
  · norm_num [DocCheck.confidenceFormula]
  · norm_num [DocCheck.confidenceFormula]

/-- Witness for C3's corrected statement at concrete scores. -/
theorem c3_witness :
    (1/10 ≤ ClaudeDetector.detectorConfidence 7 ∧
     ClaudeDetector.detectorConfidence 7 ≤ 9/10 ∧
     0 < ClaudeDetector.detectorConfidence 7 ∧
     ClaudeDetector.detectorConfidence 7 < 1) ∧
    (|ClaudeDetector.detectorConfidence (-3) - 1/2|
       ≤ |ClaudeDetector.detectorConfidence 5 - 1/2|) ∧
    (0 ≤ DocCheck.confidenceFormula 4 2 true ∧
     DocCheck.confidenceFormula 4 2 true ≤ 1) :=
  ⟨c3_confidence_bounds_corrected.1 7,
   c3_confidence_bounds_corrected.2.2.1 (-3) 5 (by norm_num),
   c3_confidence_bounds_corrected.2.2.2.1 4 2 true⟩

/-- Counterexample for C3 as stated: the doc-check.ts aggregator applied
to the evidence set consisting of a single unopposed documentation point
(`docEvidence = 1`, `nonDocEvidence = 0`, no fetch failure) returns
confidence exactly 1 — not strictly below 1, and above any ceiling
strictly inside `[0,1]`.  The input is reachable: a URL such as
`https://example.com/x.pdf` collects exactly this evidence set, and
`applyHeuristics` reports confidence 1 on it. -/
theorem c3_counterexample :
    DocCheck.confidenceFormula 1 0 false = 1 ∧
    DocCheck.heuristicTotals ⟨"example.com", "/x.pdf", "e"⟩
        DocCheck.FetchOutcome.nonString = (1, 0, false) ∧
    (DocCheck.applyHeuristics ⟨"example.com", "/x.pdf", "e"⟩
        DocCheck.FetchOutcome.nonString).confidence = 1 := by
  refine ⟨by norm_num [DocCheck.confidenceFormula], by decide, ?_⟩
  have h : DocCheck.heuristicTotals ⟨"example.com", "/x.pdf", "e"⟩
      DocCheck.FetchOutcome.nonString = (1, 0, false) := by decide
  simp only [DocCheck.applyHeuristics, h]
  norm_num [DocCheck.confidenceFormula]

/-! ## C7 -/

/-- C7: wherever the verdict is computed locally (no LLM input), it is
exactly `totalScore > 0`, with `totalScore` the sum of all evidence
scores: the claude detector's URL-pattern verdict, its repository-content
aggregation without an LLM, and doc-check.ts's `isDoc` (whose signed total
is `docEvidence − nonDocEvidence`).  Ties (total exactly 0) are `false`,
as witnessed by the empty evidence set. -/
theorem c7_local_verdict_is_score_sign :
    (∀ u : Url, (ClaudeDetector.analyzeUrlPattern u).isLikelyDoc
        = decide (0 <
            ((ClaudeDetector.detectorEvidence u).map Evidence.score).sum)) ∧
    (∀ ev uev : List Evidence,
        (ClaudeDetector.repoAggregate ev uev none).1
          = decide (0 < ((ev ++ uev).map Evidence.score).sum)) ∧
    (∀ (u : Url) (f : DocCheck.FetchOutcome),
        (DocCheck.applyHeuristics u f).isDoc
          = decide (0 < ((DocCheck.heuristicTotals u f).1 : ℤ)
              - ((DocCheck.heuristicTotals u f).2.1 : ℤ))) ∧
    (ClaudeDetector.repoAggregate [] [] none).1 = false := by
  refine ⟨?_, ?_, ?_, rfl⟩
  · intro u
    simp only [ClaudeDetector.analyzeUrlPattern, evTotal_eq_sum]
  · intro ev uev
    simp only [ClaudeDetector.repoAggregate, evTotal_eq_sum,
      List.map_append, List.sum_append]
  · intro u f
    simp only [DocCheck.applyHeuristics]
    rw [decide_eq_decide]
    omega

/-! ## C9 -/

/-- C9: in the `DocumentationDetector` variant the URL-pattern confidence
never exceeds `0.9` (it is `0.5` plus at most `0.4`), so the
short-circuit branch guarded by `confidence > 0.9` in `isDocUrl` is
unreachable: for every URL that parses, the detector attempts a content
fetch before returning. -/
theorem c9_short_circuit_unreachable
    (parse : String → Option Url) (fetch : ClaudeDetector.DetectorFetch)
    (repoFn docsFn : String → ClaudeDetector.DetectorAnalysis → DocResult)
    (url : String) (u : Url) (hp : parse url = some u) :
    (ClaudeDetector.analyzeUrlPattern u).confidence ≤ 9/10 ∧
    (ClaudeDetector.isDocUrlRun parse fetch repoFn docsFn url).2
      = true := by
  have h1 : (ClaudeDetector.analyzeUrlPattern u).confidence ≤ 9/10 :=
    (detectorConfidence_bounds
      (evTotal (ClaudeDetector.detectorEvidence u))).2
  refine ⟨h1, ?_⟩
  simp only [ClaudeDetector.isDocUrlRun, hp]
  rw [if_neg (not_lt.mpr h1)]
  cases fetch <;> rfl

/-- Witness for C9 at a concrete URL. -/
theorem c9_witness :
    (ClaudeDetector.analyzeUrlPattern ⟨"docs.python.org", "/3/",
        "https://docs.python.org/3/"⟩).confidence ≤ 9/10 ∧
    (ClaudeDetector.isDocUrlRun
        (fun _ => some ⟨"docs.python.org", "/3/",
          "https://docs.python.org/3/"⟩)
        ClaudeDetector.DetectorFetch.failure
        (fun _ _ => ⟨false, 0, "s"⟩) (fun _ _ => ⟨false, 0, "s"⟩)
        "https://docs.python.org/3/").2 = true :=
  c9_short_circuit_unreachable
    (fun _ => some ⟨"docs.python.org", "/3/",
      "https://docs.python.org/3/"⟩)
    ClaudeDetector.DetectorFetch.failure
    (fun _ _ => ⟨false, 0, "s"⟩) (fun _ _ => ⟨false, 0, "s"⟩)
    "https://docs.python.org/3/"
    ⟨"docs.python.org", "/3/", "https://docs.python.org/3/"⟩ rfl

/-! ## Equation lemmas for `ClaudeValidator.isDocUrl` -/

/-- A documentation-platform hostname sets the validator's strong positive
signal. -/
theorem claudeValidator_platform_strong (u : Url)
    (h : ClaudeValidator.platformHit u.hostname = true) :
    (ClaudeValidator.analyzeUrlPattern u).isStrongDocSignal = true := by
  simp only [ClaudeValidator.analyzeUrlPattern, h]
  simp

/-- On a cache miss with a strong positive or negative pattern signal, the
validator returns the short-circuit result: verdict equal to the strong
positive flag, confidence fixed at `0.85`, `source = 'url_pattern'`, and
no content fetch. -/
theorem claudeValidator_strong_short_circuit (cfg : ClaudeValidator.VConfig)
    (parse : String → Option Url) (fetch : ClaudeValidator.VFetch)
    (repoFn docsFn : Bool → String → DocResult) (now : ℤ)
    (s : ClaudeValidator.VState) (url : String) (u : Url)
    (hp : parse url = some u)
    (hc : ClaudeValidator.vCheckCache s.cache cfg.cacheTTL now url = none)
    (hflag : (ClaudeValidator.analyzeUrlPattern u).isStrongDocSignal = true
      ∨ (ClaudeValidator.analyzeUrlPattern u).isStrongNonDocSignal
          = true) :
    ClaudeValidator.isDocUrl cfg parse fetch repoFn docsFn now s url
      = (ClaudeValidator.VRet.res
          ⟨(ClaudeValidator.analyzeUrlPattern u).isStrongDocSignal, 17/20,
           "url_pattern"⟩,
         ⟨ClaudeValidator.vSaveToCache s.cache url
            ⟨(ClaudeValidator.analyzeUrlPattern u).isStrongDocSignal,
             17/20, "url_pattern"⟩ now⟩,
         ⟨false, false, true⟩) := by
  simp only [ClaudeValidator.isDocUrl, hp, hc]
  cases hd : (ClaudeValidator.analyzeUrlPattern u).isStrongDocSignal with
  | true => rw [if_pos rfl]
  | false =>
    rcases hflag with hflag | hflag
    · rw [hd] at hflag
      exact absurd hflag (by simp)
    · rw [if_neg (by simp), if_pos hflag]

/-! ## C2 -/

/-- C2 (corrected): in the doc-check-claude.ts validator the claim holds —
for every parsed URL missing the cache whose pattern analysis sets the
strong positive or strong negative flag (a documentation-platform
hostname always sets the positive flag), classification returns
`source = 'url_pattern'` with confidence fixed at `0.85` and no content
fetch is attempted, for every configuration (in particular whether or not
the arbiter is enabled).  In doc-check.ts the fetch is skipped for a
documentation-platform hostname only when the hostname does not also
contain a code-hosting domain. -/
theorem c2_strong_signal_short_circuit (cfg : ClaudeValidator.VConfig)
    (parse : String → Option Url) (fetch : ClaudeValidator.VFetch)
    (repoFn docsFn : Bool → String → DocResult) (now : ℤ) (url : String)
    (u : Url) (hp : parse url = some u)
    (hflag : (ClaudeValidator.analyzeUrlPattern u).isStrongDocSignal = true
      ∨ (ClaudeValidator.analyzeUrlPattern u).isStrongNonDocSignal
          = true) :
    ((ClaudeValidator.isDocUrl cfg parse fetch repoFn docsFn now ⟨[]⟩
        url).1
      = ClaudeValidator.VRet.res
          ⟨(ClaudeValidator.analyzeUrlPattern u).isStrongDocSignal, 17/20,
           "url_pattern"⟩ ∧
     (ClaudeValidator.isDocUrl cfg parse fetch repoFn docsFn now ⟨[]⟩
        url).2.2.fetched = false) ∧
    (∀ w : Url, ClaudeValidator.platformHit w.hostname = true →
        (ClaudeValidator.analyzeUrlPattern w).isStrongDocSignal = true) ∧
    (∀ (w : Url) (f : DocCheck.FetchOutcome),
        DocCheck.hasDocPlatform w.hostname = true →
        DocCheck.isGitHostname w.hostname = false →
        (DocCheck.applyHeuristics w f).fetchAttempted = false) := by
  refine ⟨?_, claudeValidator_platform_strong, ?_⟩
  · have h := claudeValidator_strong_short_circuit cfg parse fetch repoFn
      docsFn now ⟨[]⟩ url u hp rfl hflag
    rw [h]
    exact ⟨rfl, rfl⟩
  · intro w f hplat hgit
    have he1 : (DocCheck.urlEvidence w).2 = 0 := by
      unfold DocCheck.urlEvidence
      rw [hgit]
      simp
    have he2 : 3 ≤ (DocCheck.urlEvidence w).1 := by
      unfold DocCheck.urlEvidence
      rw [hplat, hgit]
      simp only [if_true, Bool.false_eq_true, if_false]
      split_ifs <;> omega
    simp only [DocCheck.applyHeuristics]
    rw [decide_eq_false_iff_not]
    omega

/-- Witness for C2's corrected statement: `https://docs.python.org/3/`
(strong positive hostname pattern) short-circuits in the claude validator
with the arbiter enabled, and `gitbook.io` (documentation platform, not a
git host) closes the fetch gate in doc-check.ts. -/
theorem c2_witness :
    ((ClaudeValidator.isDocUrl ⟨true, 86400⟩
        (fun _ => some ⟨"docs.python.org", "/3/",
          "https://docs.python.org/3/"⟩)
        ClaudeValidator.VFetch.failure (fun _ _ => ⟨false, 0, "s"⟩)
        (fun _ _ => ⟨false, 0, "s"⟩) 0 ⟨[]⟩
        "https://docs.python.org/3/").1
      = ClaudeValidator.VRet.res
          ⟨(ClaudeValidator.analyzeUrlPattern ⟨"docs.python.org", "/3/",
              "https://docs.python.org/3/"⟩).isStrongDocSignal, 17/20,
           "url_pattern"⟩ ∧
     (ClaudeValidator.isDocUrl ⟨true, 86400⟩
        (fun _ => some ⟨"docs.python.org", "/3/",
          "https://docs.python.org/3/"⟩)
        ClaudeValidator.VFetch.failure (fun _ _ => ⟨false, 0, "s"⟩)
        (fun _ _ => ⟨false, 0, "s"⟩) 0 ⟨[]⟩
        "https://docs.python.org/3/").2.2.fetched = false) ∧
    (∀ w : Url, ClaudeValidator.platformHit w.hostname = true →
        (ClaudeValidator.analyzeUrlPattern w).isStrongDocSignal = true) ∧
    (∀ (w : Url) (f : DocCheck.FetchOutcome),
        DocCheck.hasDocPlatform w.hostname = true →
        DocCheck.isGitHostname w.hostname = false →
        (DocCheck.applyHeuristics w f).fetchAttempted = false) :=
  c2_strong_signal_short_circuit ⟨true, 86400⟩
    (fun _ => some ⟨"docs.python.org", "/3/",
      "https://docs.python.org/3/"⟩)
    ClaudeValidator.VFetch.failure (fun _ _ => ⟨false, 0, "s"⟩)
    (fun _ _ => ⟨false, 0, "s"⟩) 0 "https://docs.python.org/3/"
    ⟨"docs.python.org", "/3/", "https://docs.python.org/3/"⟩ rfl
    (Or.inl (by decide))

/-- Counterexample for C2 as stated: the hostname
`github.com.gitbook.io` matches the known documentation platform
`gitbook.io` by doc-check.ts's own test, yet `applyHeuristics` on
`https://github.com.gitbook.io/` still attempts a content fetch — the
bare-repository penalty for the also-contained `github.com` keeps the URL
evidence below the fetch-skipping threshold. -/
theorem c2_counterexample :
    DocCheck.hasDocPlatform "github.com.gitbook.io" = true ∧
    (DocCheck.applyHeuristics
        ⟨"github.com.gitbook.io", "/", "https://github.com.gitbook.io/"⟩
        DocCheck.FetchOutcome.nonString).fetchAttempted = true := by
  decide

/-! ## C4 -/

/-- C4 (corrected): when the arbiter's self-reported confidence is below
the configured minimum, both variants ignore the arbiter verdict and
return an unconditional `false` — not the local heuristic sign.  In
particular, on a low-confidence heuristic run followed by a low-confidence
arbiter reply, `isDocUrl` returns `false` regardless of the sign of the
local evidence. -/
theorem c4_low_confidence_arbiter_yields_false (cfg : DocCheck.Config)
    (parse : String → Option Url) (fetch : DocCheck.FetchOutcome)
    (now : ℤ) (s : ValState) (url : String) (u : Url) (b : Bool) (c : ℚ)
    (hp : parse url = some u)
    (hc : DocCheck.checkCache cfg s.cache now url = none)
    (hheur : (DocCheck.applyHeuristics u fetch).confidence
        < cfg.minHeuristicConfidence)
    (hlow : c < cfg.minLlmConfidence) :
    (DocCheck.isDocUrl cfg parse fetch (LlmOutcome.parsed b c) now s
        url).1 = false ∧
    DocCheck.askLlmDecision (LlmOutcome.parsed b c) cfg.minLlmConfidence
      = false ∧
    (∀ (m : ℚ) (b' : Bool) (c' : ℚ), c' < m →
        DocCheckOpen.runLlmCheckDecision (LlmOutcome.parsed b' c') m
          = false) := by
  have hdec : DocCheck.askLlmDecision (LlmOutcome.parsed b c)
      cfg.minLlmConfidence = false := by
    simp only [DocCheck.askLlmDecision]
    rw [if_neg (not_le.mpr hlow)]
  refine ⟨?_, hdec, ?_⟩
  · rw [docCheck_isDocUrl_llm cfg parse fetch (LlmOutcome.parsed b c) now
      s url u hp hc hheur]
    exact hdec
  · intro m b' c' h
    simp only [DocCheckOpen.runLlmCheckDecision]
    rw [if_neg (not_le.mpr h)]

/-- Witness for C4's corrected statement: `https://github.com/x/api` gives
heuristic evidence `(2, 1)` — positive sign, confidence `2/3` below the
`0.7` threshold — and the arbiter answers `{isDocumentation: true,
confidence: 0.4}` against `minLlmConfidence = 0.7`; the engine returns
`false`. -/
theorem c4_witness :
    (DocCheck.isDocUrl ⟨10, 7/10, 7/10, 86400⟩
        (fun _ => some ⟨"github.com", "/x/api",
          "https://github.com/x/api"⟩)
        DocCheck.FetchOutcome.nonString (LlmOutcome.parsed true (2/5)) 0
        (initState 0) "https://github.com/x/api").1 = false ∧
    DocCheck.askLlmDecision (LlmOutcome.parsed true (2/5)) (7/10)
      = false ∧
    (∀ (m : ℚ) (b' : Bool) (c' : ℚ), c' < m →
        DocCheckOpen.runLlmCheckDecision (LlmOutcome.parsed b' c') m
          = false) :=
  c4_low_confidence_arbiter_yields_false ⟨10, 7/10, 7/10, 86400⟩
    (fun _ => some ⟨"github.com", "/x/api", "https://github.com/x/api"⟩)
    DocCheck.FetchOutcome.nonString 0 (initState 0)
    "https://github.com/x/api"
    ⟨"github.com", "/x/api", "https://github.com/x/api"⟩ true (2/5) rfl
    rfl
    (by
      have ht : DocCheck.heuristicTotals ⟨"github.com", "/x/api",
          "https://github.com/x/api"⟩ DocCheck.FetchOutcome.nonString
          = (2, 1, false) := by decide
      simp only [DocCheck.applyHeuristics, ht]
      norm_num [DocCheck.confidenceFormula])
    (by norm_num)

/-- Counterexample for C4 as stated: at the same input the local heuristic
sign is positive (`isDoc = true`, total score `2 − 1 > 0`), yet the final
verdict after the low-confidence arbiter reply is `false` — the engine
does not fall back to the local heuristic sign. -/
theorem c4_counterexample :
    (DocCheck.isDocUrl ⟨10, 7/10, 7/10, 86400⟩
        (fun _ => some ⟨"github.com", "/x/api",
          "https://github.com/x/api"⟩)
        DocCheck.FetchOutcome.nonString (LlmOutcome.parsed true (2/5)) 0
        (initState 0) "https://github.com/x/api").1 = false ∧
    (DocCheck.applyHeuristics ⟨"github.com", "/x/api",
        "https://github.com/x/api"⟩
        DocCheck.FetchOutcome.nonString).isDoc = true := by
  have ht : DocCheck.heuristicTotals ⟨"github.com", "/x/api",
      "https://github.com/x/api"⟩ DocCheck.FetchOutcome.nonString
      = (2, 1, false) := by decide
  have hconf : (DocCheck.applyHeuristics ⟨"github.com", "/x/api",
      "https://github.com/x/api"⟩
      DocCheck.FetchOutcome.nonString).confidence = 2/3 := by
    simp only [DocCheck.applyHeuristics, ht]
    norm_num [DocCheck.confidenceFormula]
  constructor
  · rw [docCheck_isDocUrl_llm ⟨10, 7/10, 7/10, 86400⟩
      (fun _ => some ⟨"github.com", "/x/api",
        "https://github.com/x/api"⟩)
      DocCheck.FetchOutcome.nonString (LlmOutcome.parsed true (2/5)) 0
      (initState 0) "https://github.com/x/api"
      ⟨"github.com", "/x/api", "https://github.com/x/api"⟩ rfl rfl
      (by rw [hconf]; norm_num)]
    show DocCheck.askLlmDecision (LlmOutcome.parsed true (2/5)) (7/10)
        = false
    simp only [DocCheck.askLlmDecision]
    rw [if_neg (by norm_num : ¬((7:ℚ)/10 ≤ 2/5))]
  · simp only [DocCheck.applyHeuristics, ht]
    rfl

/-! ## Equation lemmas for `DocCheckOpen.isDocUrl` -/

/-- A valid URL whose cache entry is live is answered from the cache by
the doc-check-open.ts validator. -/
theorem docCheckOpen_isDocUrl_hit (cfg : DocCheckOpen.Config)
    (parse : String → Option Url) (llm : LlmOutcome) (now : ℤ)
    (s : ValState) (url : String) (u : Url) (v : Bool)
    (hp : parse url = some u)
    (hc : DocCheckOpen.getCachedResult cfg s.cache now url = some v) :
    DocCheckOpen.isDocUrl cfg parse llm now s url
      = (v, s, cacheHitEffects) := by
  simp only [DocCheckOpen.isDocUrl, hp, hc]

/-- A valid URL missing the cache is decided by the LLM check in the
doc-check-open.ts validator — both the git-host and the dedicated-site
branch conclude with `runLlmCheck` — and the verdict is cached. -/
theorem docCheckOpen_isDocUrl_miss (cfg : DocCheckOpen.Config)
    (parse : String → Option Url) (llm : LlmOutcome) (now : ℤ)
    (s : ValState) (url : String) (u : Url)
    (hp : parse url = some u)
    (hc : DocCheckOpen.getCachedResult cfg s.cache now url = none) :
    DocCheckOpen.isDocUrl cfg parse llm now s url
      = (DocCheckOpen.runLlmCheckDecision llm cfg.minLlmConfidence,
         ⟨cacheStore s.cache url
            (DocCheckOpen.runLlmCheckDecision llm cfg.minLlmConfidence)
            (now + (DocCheckOpen.applyRateLimit cfg.maxRequestsPerMinute
              s.rate now).1),
          (DocCheckOpen.applyRateLimit cfg.maxRequestsPerMinute s.rate
            now).2⟩,
         ⟨true, false, true, true, true,
          (DocCheckOpen.applyRateLimit cfg.maxRequestsPerMinute s.rate
            now).1, true⟩) := by
  simp only [DocCheckOpen.isDocUrl, hp, hc,
    DocCheckOpen.evaluateGitBasedDoc,
    DocCheckOpen.evaluateDedicatedDocSite, ite_self]

/-! ## C5 -/

/-- C5: starting from a fresh validator, a second call to `isDocUrl` on
the same URL within the cache TTL returns the identical result, leaves the
state untouched, and performs no network activity at all — its effects are
exactly a cache read and hit: no fetch, no arbiter call, no cache write,
no rate-limit delay and no budget consumption (the second call may even
face different fetch/arbiter oracles; they are never consulted).  Proved
for both cited variants: doc-check.ts (whose entries are live while
`age < ttl·1000`) and doc-check-open.ts (live while `age ≤ ttl·1000`). -/
theorem c5_repeat_within_ttl_hits_cache (cfg : DocCheck.Config)
    (cfgB : DocCheckOpen.Config) (parse : String → Option Url)
    (f1 f2 : DocCheck.FetchOutcome) (l1 l2 lB1 lB2 : LlmOutcome)
    (t0 t1 t2 : ℤ) (url : String) (u : Url)
    (hp : parse url = some u) (hm : 1 ≤ cfg.maxRequestsPerMinute)
    (httl : t2 - t1 < cfg.cacheTtl * 1000)
    (hmB : 1 ≤ cfgB.maxRequestsPerMinute)
    (httlB : t2 - t1 ≤ cfgB.cacheTtl * 1000) :
    ((DocCheck.isDocUrl cfg parse f2 l2 t2
        (DocCheck.isDocUrl cfg parse f1 l1 t1 (initState t0) url).2.1
        url).1
      = (DocCheck.isDocUrl cfg parse f1 l1 t1 (initState t0) url).1 ∧
    (DocCheck.isDocUrl cfg parse f2 l2 t2
        (DocCheck.isDocUrl cfg parse f1 l1 t1 (initState t0) url).2.1
        url).2.1
      = (DocCheck.isDocUrl cfg parse f1 l1 t1 (initState t0) url).2.1 ∧
    (DocCheck.isDocUrl cfg parse f2 l2 t2
        (DocCheck.isDocUrl cfg parse f1 l1 t1 (initState t0) url).2.1
        url).2.2 = cacheHitEffects) ∧
    ((DocCheckOpen.isDocUrl cfgB parse lB2 t2
        (DocCheckOpen.isDocUrl cfgB parse lB1 t1 (initState t0) url).2.1
        url).1
      = (DocCheckOpen.isDocUrl cfgB parse lB1 t1 (initState t0) url).1 ∧
    (DocCheckOpen.isDocUrl cfgB parse lB2 t2
        (DocCheckOpen.isDocUrl cfgB parse lB1 t1 (initState t0) url).2.1
        url).2.1
      = (DocCheckOpen.isDocUrl cfgB parse lB1 t1 (initState t0)
          url).2.1 ∧
    (DocCheckOpen.isDocUrl cfgB parse lB2 t2
        (DocCheckOpen.isDocUrl cfgB parse lB1 t1 (initState t0) url).2.1
        url).2.2 = cacheHitEffects) := by
  constructor
  · have hrl : DocCheck.applyRateLimit cfg.maxRequestsPerMinute
        (initState t0).rate t1
        = (0, ⟨1, if t0 + 60000 < t1 then t1 + 60000 else t0 + 60000⟩) :=
      applyRateLimit_fresh cfg.maxRequestsPerMinute (t0 + 60000) t1 hm
    have hcachehit : ∀ v : Bool,
        DocCheck.checkCache cfg (cacheStore [] url v t1) t2 url
          = some v := by
      intro v
      unfold DocCheck.checkCache cacheLookup cacheStore
      simp only [List.find?, beq_self_eq_true]
      rw [if_pos httl]
    by_cases hco : cfg.minHeuristicConfidence
        ≤ (DocCheck.applyHeuristics u f1).confidence
    · have h1 := docCheck_isDocUrl_heur cfg parse f1 l1 t1 (initState t0)
        url u hp rfl hco
      rw [hrl] at h1
      simp only [add_zero] at h1
      rw [show (initState t0).cache = ([] : CacheMap) from rfl] at h1
      have h2 := docCheck_isDocUrl_hit cfg parse f2 l2 t2
        ⟨cacheStore [] url (DocCheck.applyHeuristics u f1).isDoc t1,
         ⟨1, if t0 + 60000 < t1 then t1 + 60000 else t0 + 60000⟩⟩
        url u (DocCheck.applyHeuristics u f1).isDoc hp
        (hcachehit (DocCheck.applyHeuristics u f1).isDoc)
      simp only [h1]
      rw [h2]
      exact ⟨rfl, rfl, rfl⟩
    · have h1 := docCheck_isDocUrl_llm cfg parse f1 l1 t1 (initState t0)
        url u hp rfl (not_le.mp hco)
      rw [hrl] at h1
      simp only [add_zero] at h1
      rw [show (initState t0).cache = ([] : CacheMap) from rfl] at h1
      have h2 := docCheck_isDocUrl_hit cfg parse f2 l2 t2
        ⟨cacheStore [] url
           (DocCheck.askLlmDecision l1 cfg.minLlmConfidence) t1,
         ⟨1, if t0 + 60000 < t1 then t1 + 60000 else t0 + 60000⟩⟩
        url u (DocCheck.askLlmDecision l1 cfg.minLlmConfidence) hp
        (hcachehit (DocCheck.askLlmDecision l1 cfg.minLlmConfidence))
      simp only [h1]
      rw [h2]
      exact ⟨rfl, rfl, rfl⟩
  · have hrlB : DocCheckOpen.applyRateLimit cfgB.maxRequestsPerMinute
        (initState t0).rate t1
        = (0, ⟨1, if t0 + 60000 < t1 then t1 + 60000 else t0 + 60000⟩) :=
      applyRateLimit_fresh cfgB.maxRequestsPerMinute (t0 + 60000) t1 hmB
    have h1 := docCheckOpen_isDocUrl_miss cfgB parse lB1 t1 (initState t0)
      url u hp rfl
    rw [hrlB] at h1
    simp only [add_zero] at h1
    rw [show (initState t0).cache = ([] : CacheMap) from rfl] at h1
    have hcB : DocCheckOpen.getCachedResult cfgB
        (cacheStore [] url
          (DocCheckOpen.runLlmCheckDecision lB1 cfgB.minLlmConfidence)
          t1) t2 url
        = some (DocCheckOpen.runLlmCheckDecision lB1
            cfgB.minLlmConfidence) := by
      unfold DocCheckOpen.getCachedResult cacheLookup cacheStore
      simp only [List.find?, beq_self_eq_true]
      rw [if_neg (not_lt.mpr httlB)]
    have h2 := docCheckOpen_isDocUrl_hit cfgB parse lB2 t2
      ⟨cacheStore [] url
         (DocCheckOpen.runLlmCheckDecision lB1 cfgB.minLlmConfidence) t1,
       ⟨1, if t0 + 60000 < t1 then t1 + 60000 else t0 + 60000⟩⟩
      url u (DocCheckOpen.runLlmCheckDecision lB1 cfgB.minLlmConfidence)
      hp hcB
    simp only [h1]
    rw [h2]
    exact ⟨rfl, rfl, rfl⟩

/-- Witness for C5 at a concrete URL and times 0 and 1000 ms with the
default 24-hour TTLs of both variants. -/
theorem c5_witness :
    ((DocCheck.isDocUrl DocCheck.defaultConfig
        (fun _ => some ⟨"example.com", "/x.pdf",
          "https://example.com/x.pdf"⟩)
        DocCheck.FetchOutcome.failure LlmOutcome.apiFailure 1000
        (DocCheck.isDocUrl DocCheck.defaultConfig
          (fun _ => some ⟨"example.com", "/x.pdf",
            "https://example.com/x.pdf"⟩)
          DocCheck.FetchOutcome.nonString LlmOutcome.apiFailure 0
          (initState 0) "https://example.com/x.pdf").2.1
        "https://example.com/x.pdf").1
      = (DocCheck.isDocUrl DocCheck.defaultConfig
          (fun _ => some ⟨"example.com", "/x.pdf",
            "https://example.com/x.pdf"⟩)
          DocCheck.FetchOutcome.nonString LlmOutcome.apiFailure 0
          (initState 0) "https://example.com/x.pdf").1 ∧
    (DocCheck.isDocUrl DocCheck.defaultConfig
        (fun _ => some ⟨"example.com", "/x.pdf",
          "https://example.com/x.pdf"⟩)
        DocCheck.FetchOutcome.failure LlmOutcome.apiFailure 1000
        (DocCheck.isDocUrl DocCheck.defaultConfig
          (fun _ => some ⟨"example.com", "/x.pdf",
            "https://example.com/x.pdf"⟩)
          DocCheck.FetchOutcome.nonString LlmOutcome.apiFailure 0
          (initState 0) "https://example.com/x.pdf").2.1
        "https://example.com/x.pdf").2.1
      = (DocCheck.isDocUrl DocCheck.defaultConfig
          (fun _ => some ⟨"example.com", "/x.pdf",
            "https://example.com/x.pdf"⟩)
          DocCheck.FetchOutcome.nonString LlmOutcome.apiFailure 0
          (initState 0) "https://example.com/x.pdf").2.1 ∧
    (DocCheck.isDocUrl DocCheck.defaultConfig
        (fun _ => some ⟨"example.com", "/x.pdf",
          "https://example.com/x.pdf"⟩)
        DocCheck.FetchOutcome.failure LlmOutcome.apiFailure 1000
        (DocCheck.isDocUrl DocCheck.defaultConfig
          (fun _ => some ⟨"example.com", "/x.pdf",
            "https://example.com/x.pdf"⟩)
          DocCheck.FetchOutcome.nonString LlmOutcome.apiFailure 0
          (initState 0) "https://example.com/x.pdf").2.1
        "https://example.com/x.pdf").2.2 = cacheHitEffects) ∧
    ((DocCheckOpen.isDocUrl DocCheckOpen.defaultConfig
        (fun _ => some ⟨"example.com", "/x.pdf",
          "https://example.com/x.pdf"⟩)
        LlmOutcome.apiFailure 1000
        (DocCheckOpen.isDocUrl DocCheckOpen.defaultConfig
          (fun _ => some ⟨"example.com", "/x.pdf",
            "https://example.com/x.pdf"⟩)
          LlmOutcome.apiFailure 0
          (initState 0) "https://example.com/x.pdf").2.1
        "https://example.com/x.pdf").1
      = (DocCheckOpen.isDocUrl DocCheckOpen.defaultConfig
          (fun _ => some ⟨"example.com", "/x.pdf",
            "https://example.com/x.pdf"⟩)
          LlmOutcome.apiFailure 0
          (initState 0) "https://example.com/x.pdf").1 ∧
    (DocCheckOpen.isDocUrl DocCheckOpen.defaultConfig
        (fun _ => some ⟨"example.com", "/x.pdf",
          "https://example.com/x.pdf"⟩)
        LlmOutcome.apiFailure 1000
        (DocCheckOpen.isDocUrl DocCheckOpen.defaultConfig
          (fun _ => some ⟨"example.com", "/x.pdf",
            "https://example.com/x.pdf"⟩)
          LlmOutcome.apiFailure 0
          (initState 0) "https://example.com/x.pdf").2.1
        "https://example.com/x.pdf").2.1
      = (DocCheckOpen.isDocUrl DocCheckOpen.defaultConfig
          (fun _ => some ⟨"example.com", "/x.pdf",
            "https://example.com/x.pdf"⟩)
          LlmOutcome.apiFailure 0
          (initState 0) "https://example.com/x.pdf").2.1 ∧
    (DocCheckOpen.isDocUrl DocCheckOpen.defaultConfig
        (fun _ => some ⟨"example.com", "/x.pdf",
          "https://example.com/x.pdf"⟩)
        LlmOutcome.apiFailure 1000
        (DocCheckOpen.isDocUrl DocCheckOpen.defaultConfig
          (fun _ => some ⟨"example.com", "/x.pdf",
            "https://example.com/x.pdf"⟩)
          LlmOutcome.apiFailure 0
          (initState 0) "https://example.com/x.pdf").2.1
        "https://example.com/x.pdf").2.2 = cacheHitEffects) :=
  c5_repeat_within_ttl_hits_cache DocCheck.defaultConfig
    DocCheckOpen.defaultConfig
    (fun _ => some ⟨"example.com", "/x.pdf",
      "https://example.com/x.pdf"⟩)
    DocCheck.FetchOutcome.nonString DocCheck.FetchOutcome.failure
    LlmOutcome.apiFailure LlmOutcome.apiFailure LlmOutcome.apiFailure
    LlmOutcome.apiFailure 0 0 1000 "https://example.com/x.pdf"
    ⟨"example.com", "/x.pdf", "https://example.com/x.pdf"⟩ rfl
    (by norm_num [DocCheck.defaultConfig])
    (by norm_num [DocCheck.defaultConfig])
    (by norm_num [DocCheckOpen.defaultConfig])
    (by norm_num [DocCheckOpen.defaultConfig])

/-! ## C10 -/

/-- C10: each call through an exported module-level `isDocUrl` convenience
function constructs a brand-new validator (empty cache, fresh rate
window), so no cache entry and no rate count survives between exported
calls: every exported call — in particular a repeat call on the same URL —
starts with a cache miss (`cacheHit = false`) and an unconsumed rate
budget (`rateDelay = 0`). -/
theorem c10_exported_state_is_fresh (cfgA : DocCheck.Config)
    (parse : String → Option Url) (fetch : DocCheck.FetchOutcome)
    (llmA llmB : LlmOutcome) (tA tB : ℤ) (urlA urlB : String)
    (hmA : 1 ≤ cfgA.maxRequestsPerMinute) :
    ((DocCheck.isDocUrlExported cfgA parse fetch llmA tA
        urlA).2.2.cacheHit = false ∧
     (DocCheck.isDocUrlExported cfgA parse fetch llmA tA
        urlA).2.2.rateDelay = 0) ∧
    ((DocCheckOpen.isDocUrlExported parse llmB tB urlB).2.2.cacheHit
        = false ∧
     (DocCheckOpen.isDocUrlExported parse llmB tB urlB).2.2.rateDelay
        = 0) := by
  constructor
  · cases hpu : parse urlA with
    | none =>
      unfold DocCheck.isDocUrlExported DocCheck.isDocUrl
      rw [hpu]
      exact ⟨rfl, rfl⟩
    | some u =>
      have hrl : DocCheck.applyRateLimit cfgA.maxRequestsPerMinute
          (initState tA).rate tA
          = (0, ⟨1, if tA + 60000 < tA then tA + 60000
              else tA + 60000⟩) :=
        applyRateLimit_fresh cfgA.maxRequestsPerMinute (tA + 60000) tA hmA
      unfold DocCheck.isDocUrlExported
      by_cases hco : cfgA.minHeuristicConfidence
          ≤ (DocCheck.applyHeuristics u fetch).confidence
      · rw [docCheck_isDocUrl_heur cfgA parse fetch llmA tA (initState tA)
          urlA u hpu rfl hco]
        rw [hrl]
        exact ⟨rfl, rfl⟩
      · rw [docCheck_isDocUrl_llm cfgA parse fetch llmA tA (initState tA)
          urlA u hpu rfl (not_le.mp hco)]
        rw [hrl]
        exact ⟨rfl, rfl⟩
  · cases hpu : parse urlB with
    | none =>
      unfold DocCheckOpen.isDocUrlExported DocCheckOpen.isDocUrl
      rw [hpu]
      exact ⟨rfl, rfl⟩
    | some u =>
      have hrl : DocCheckOpen.applyRateLimit
          DocCheckOpen.defaultConfig.maxRequestsPerMinute
          (initState tB).rate tB
          = (0, ⟨1, if tB + 60000 < tB then tB + 60000
              else tB + 60000⟩) :=
        applyRateLimit_fresh 10 (tB + 60000) tB (by norm_num)
      unfold DocCheckOpen.isDocUrlExported DocCheckOpen.isDocUrl
      rw [hpu]
      refine ⟨rfl, ?_⟩
      show (DocCheckOpen.applyRateLimit
          DocCheckOpen.defaultConfig.maxRequestsPerMinute
          (initState tB).rate tB).1 = 0
      rw [hrl]

/-- Witness for C10 at concrete inputs. -/
theorem c10_witness :
    ((DocCheck.isDocUrlExported DocCheck.defaultConfig
        (fun _ => some ⟨"example.com", "/a", "https://example.com/a"⟩)
        DocCheck.FetchOutcome.failure LlmOutcome.apiFailure 0
        "https://example.com/a").2.2.cacheHit = false ∧
     (DocCheck.isDocUrlExported DocCheck.defaultConfig
        (fun _ => some ⟨"example.com", "/a", "https://example.com/a"⟩)
        DocCheck.FetchOutcome.failure LlmOutcome.apiFailure 0
        "https://example.com/a").2.2.rateDelay = 0) ∧
    ((DocCheckOpen.isDocUrlExported
        (fun _ => some ⟨"example.com", "/a", "https://example.com/a"⟩)
        LlmOutcome.apiFailure 0
        "https://example.com/a").2.2.cacheHit = false ∧
     (DocCheckOpen.isDocUrlExported
        (fun _ => some ⟨"example.com", "/a", "https://example.com/a"⟩)
        LlmOutcome.apiFailure 0
        "https://example.com/a").2.2.rateDelay = 0) :=
  c10_exported_state_is_fresh DocCheck.defaultConfig
    (fun _ => some ⟨"example.com", "/a", "https://example.com/a"⟩)
    DocCheck.FetchOutcome.failure LlmOutcome.apiFailure
    LlmOutcome.apiFailure 0 0 "https://example.com/a"
    "https://example.com/a" (by norm_num [DocCheck.defaultConfig])
